import Mathlib

/-!
Verification of the `sha256it` shard migration service.

The development shallowly embeds the three data-plane operations of the
repository — the shard hasher (`packages/functions/src/hash.ts`), the shard
copier (`packages/functions/src/copy.ts`: `copy`, `writeCAR`, `uploadPart`,
`writeCARIndex`) and the shard reindexer (`packages/functions/src/index.ts`:
`index`, `shardMultihashes`) — as pure Lean functions over explicit chunk
lists, event traces for the S3/DynamoDB calls they issue, and oracles for the
responses of the external stores.  Bytes are `Nat` values below 256; machine
words are `Nat` reduced mod `2^32` where the JS libraries would wrap.
-/

namespace Sha256it

/-! ## SHA-256 (model of node:crypto `createHash('sha256')` and
`multiformats/hashes/sha2`) -/

/-- Reduce to a 32-bit word. -/
def w32 (x : Nat) : Nat := x % 2 ^ 32

/-- Right rotation of a 32-bit word. -/
def rotr32 (n x : Nat) : Nat := w32 ((x >>> n) ||| (x <<< (32 - n)))

def ch32 (x y z : Nat) : Nat := (x &&& y) ^^^ ((x ^^^ 0xffffffff) &&& z)

def maj32 (x y z : Nat) : Nat := (x &&& y) ^^^ (x &&& z) ^^^ (y &&& z)

def bigSigma0 (x : Nat) : Nat := rotr32 2 x ^^^ rotr32 13 x ^^^ rotr32 22 x

def bigSigma1 (x : Nat) : Nat := rotr32 6 x ^^^ rotr32 11 x ^^^ rotr32 25 x

def smallSigma0 (x : Nat) : Nat := rotr32 7 x ^^^ rotr32 18 x ^^^ (x >>> 3)

def smallSigma1 (x : Nat) : Nat := rotr32 17 x ^^^ rotr32 19 x ^^^ (x >>> 10)

/-- The eight 32-bit working variables of the SHA-256 compression function. -/
structure Hash8 where
  a : Nat
  b : Nat
  c : Nat
  d : Nat
  e : Nat
  f : Nat
  g : Nat
  h : Nat
deriving DecidableEq, Repr

/-- SHA-256 initial hash value. -/
def initH : Hash8 :=
  ⟨1779033703, 3144134277, 1013904242, 2773480762,
   1359893119, 2600822924, 528734635, 1541459225⟩

/-- SHA-256 round constants. -/
def roundK : List Nat :=
  [1116352408, 1899447441, 3049323471, 3921009573, 961987163, 1508970993,
   2453635748, 2870763221, 3624381080, 310598401, 607225278, 1426881987,
   1925078388, 2162078206, 2614888103, 3248222580, 3835390401, 4022224774,
   264347078, 604807628, 770255983, 1249150122, 1555081692, 1996064986,
   2554220882, 2821834349, 2952996808, 3210313671, 3336571891, 3584528711,
   113926993, 338241895, 666307205, 773529912, 1294757372, 1396182291,
   1695183700, 1986661051, 2177026350, 2456956037, 2730485921, 2820302411,
   3259730800, 3345764771, 3516065817, 3600352804, 4094571909, 275423344,
   430227734, 506948616, 659060556, 883997877, 958139571, 1322822218,
   1537002063, 1747873779, 1955562222, 2024104815, 2227730452, 2361852424,
   2428436474, 2756734187, 3204031479, 3329325298]

/-- Big-endian bytes of a natural number, `k` bytes wide. -/
def natToBytesBE : Nat → Nat → List Nat
  | 0, _ => []
  | k + 1, n => natToBytesBE k (n / 256) ++ [n % 256]

/-- Merkle–Damgård padding: a 0x80 byte, zeros to 56 mod 64, then the bit
length as 8 big-endian bytes. -/
def padMessage (msg : List Nat) : List Nat :=
  msg ++ 0x80 :: List.replicate ((119 - msg.length % 64) % 64) 0
      ++ natToBytesBE 8 (8 * msg.length)

/-- Split a byte list into 64-byte blocks: `cur` is the current block reversed
and `n` its remaining capacity. -/
def chunks64Acc (cur : List Nat) (n : Nat) : List Nat → List (List Nat)
  | [] => if cur = [] then [] else [cur.reverse]
  | b :: bs =>
    if n = 0 then cur.reverse :: chunks64Acc [b] 63 bs
    else chunks64Acc (b :: cur) (n - 1) bs

/-- Split a byte list into 64-byte blocks. -/
def chunks64 (l : List Nat) : List (List Nat) := chunks64Acc [] 64 l

/-- Group big-endian bytes into 32-bit words. -/
def bytesToWords : List Nat → List Nat
  | b0 :: b1 :: b2 :: b3 :: rest =>
    (b0 * 2 ^ 24 + b1 * 2 ^ 16 + b2 * 2 ^ 8 + b3) :: bytesToWords rest
  | _ => []

/-- The next word of the message schedule, from the tail of the ones so far. -/
def nextScheduleWord (acc : List Nat) : Nat :=
  let n := acc.length
  w32 (acc.getD (n - 16) 0 + smallSigma0 (acc.getD (n - 15) 0)
     + acc.getD (n - 7) 0 + smallSigma1 (acc.getD (n - 2) 0))

/-- Extend the 16 block words to the 64-entry message schedule. -/
def extendSchedule (ws : List Nat) : List Nat :=
  (List.range 48).foldl (fun acc _ => acc ++ [nextScheduleWord acc]) ws

/-- One SHA-256 round. -/
def sha256Round (st : Hash8) (wk : Nat × Nat) : Hash8 :=
  let t1 := w32 (st.h + bigSigma1 st.e + ch32 st.e st.f st.g + wk.2 + wk.1)
  let t2 := w32 (bigSigma0 st.a + maj32 st.a st.b st.c)
  ⟨w32 (t1 + t2), st.a, st.b, st.c, w32 (st.d + t1), st.e, st.f, st.g⟩

/-- Compress one 64-byte block into the running hash value. -/
def compressBlock (st : Hash8) (block : List Nat) : Hash8 :=
  let ws := extendSchedule (bytesToWords block)
  let s := (ws.zip roundK).foldl sha256Round st
  ⟨w32 (st.a + s.a), w32 (st.b + s.b), w32 (st.c + s.c), w32 (st.d + s.d),
   w32 (st.e + s.e), w32 (st.f + s.f), w32 (st.g + s.g), w32 (st.h + s.h)⟩

/-- Big-endian bytes of one 32-bit word. -/
def wordToBytesBE (x : Nat) : List Nat :=
  [x / 2 ^ 24 % 256, x / 2 ^ 16 % 256, x / 2 ^ 8 % 256, x % 256]

/-- Serialize the final hash value as 32 bytes. -/
def hashToBytes (s : Hash8) : List Nat :=
  wordToBytesBE s.a ++ wordToBytesBE s.b ++ wordToBytesBE s.c ++
  wordToBytesBE s.d ++ wordToBytesBE s.e ++ wordToBytesBE s.f ++
  wordToBytesBE s.g ++ wordToBytesBE s.h

/-- SHA-256 of a byte sequence. -/
def sha256Bytes (msg : List Nat) : List Nat :=
  hashToBytes ((chunks64 (padMessage msg)).foldl compressBlock initH)

/-- A SHA-256 digest is 32 bytes, whatever the message. -/
theorem sha256Bytes_length (msg : List Nat) : (sha256Bytes msg).length = 32 := rfl

/-! ## Multiformats primitives: varint, base32, base58btc, base64pad,
multihash and CID (models of the `multiformats` library) -/

/-- Unsigned LEB128 varint, fuelled so the kernel can evaluate it; `n` itself
is always enough fuel since the value shrinks by a factor 128 per byte. -/
def varintEncGo : Nat → Nat → List Nat
  | 0, n => [n % 128]
  | fuel + 1, n => if n < 128 then [n] else (n % 128 + 128) :: varintEncGo fuel (n / 128)

/-- Unsigned LEB128 varint encoding. -/
def varintEnc (n : Nat) : List Nat := varintEncGo n n

/-- A multihash as `multiformats/hashes/digest` stores it: hash function code,
digest size and digest bytes (its `bytes` field is the varint serialization). -/
structure Multihash where
  code : Nat
  size : Nat
  digest : List Nat
deriving DecidableEq, Repr

/-- `Digest.create(code, digest)`: the size recorded is the digest length. -/
def digestCreate (code : Nat) (d : List Nat) : Multihash := ⟨code, d.length, d⟩

/-- `multihash.bytes`: varint code, varint size, then the digest. -/
def mhBytes (mh : Multihash) : List Nat :=
  varintEnc mh.code ++ varintEnc mh.size ++ mh.digest

/-- A CID: version, codec and multihash. -/
structure Cid where
  version : Nat
  codec : Nat
  multihash : Multihash
deriving DecidableEq, Repr

/-- `Link.create(codec, multihash)` builds a version 1 CID. -/
def linkCreate (codec : Nat) (mh : Multihash) : Cid := ⟨1, codec, mh⟩

/-- `sha256.code` from `multiformats/hashes/sha2`. -/
def sha256Code : Nat := 0x12

/-- The CAR codec constant from `copy.ts` / `hash.ts`. -/
def CAR_CODEC : Nat := 0x0202

/-- The binary form of a CIDv1: varint version, varint codec, multihash. -/
def cidBytes (c : Cid) : List Nat :=
  varintEnc c.version ++ varintEnc c.codec ++ mhBytes c.multihash

/-- RFC 4648 lower-case base32 digits. -/
def b32Digit (d : Nat) : Char := "abcdefghijklmnopqrstuvwxyz234567".toList.getD d 'a'

/-- Emit 5-bit groups from a byte stream; `buf`/`bits` hold the unemitted
high-order bits (always fewer than 5 between bytes). -/
def b32Go : List Nat → Nat → Nat → List Nat
  | [], buf, bits => if bits = 0 then [] else [buf * 2 ^ (5 - bits) % 32]
  | b :: bs, buf, bits =>
    let buf2 := buf * 256 + b
    let bits2 := bits + 8
    if bits2 ≥ 10 then
      buf2 / 2 ^ (bits2 - 5) % 32 :: buf2 / 2 ^ (bits2 - 10) % 32 ::
        b32Go bs buf2 (bits2 - 10)
    else
      buf2 / 2 ^ (bits2 - 5) % 32 :: b32Go bs buf2 (bits2 - 5)

/-- Multibase base32 (lower, no padding), the default CIDv1 string base. -/
def base32Multibase (bs : List Nat) : String :=
  String.mk ('b' :: (b32Go bs 0 0).map b32Digit)

/-- `cid.toString()`: multibase base32 of the CID bytes. -/
def cidStr (c : Cid) : String := base32Multibase (cidBytes c)

/-- Bitcoin base58 digits. -/
def b58Digit (d : Nat) : Char :=
  "123456789ABCDEFGHJKLMNPQRSTUVWXYZabcdefghijkmnopqrstuvwxyz".toList.getD d '1'

/-- Little-endian base58 digit values of `n`, fuelled for kernel evaluation. -/
def natToB58Go : Nat → Nat → List Nat
  | 0, _ => []
  | fuel + 1, n => if n = 0 then [] else n % 58 :: natToB58Go fuel (n / 58)

/-- Big-endian base58 digit values of `n`. -/
def natDigitsB58 (n : Nat) : List Nat := (natToB58Go n n).reverse

/-- Big-endian value of a byte string. -/
def bytesToNatBE (bs : List Nat) : Nat := bs.foldl (fun acc b => acc * 256 + b) 0

/-- Leading zero bytes, each of which base58 renders as a literal '1'. -/
def countLeadingZeroBytes : List Nat → Nat
  | [] => 0
  | b :: bs => if b = 0 then countLeadingZeroBytes bs + 1 else 0

/-- `base58btc.encode`: multibase prefix 'z', then '1' per leading zero byte,
then the base58 digits of the byte string's value. -/
def base58btc (bs : List Nat) : String :=
  String.mk ('z' :: (List.replicate (countLeadingZeroBytes bs) '1'
    ++ (natDigitsB58 (bytesToNatBE bs)).map b58Digit))

/-- RFC 4648 base64 digits. -/
def b64Digit (d : Nat) : Char :=
  "ABCDEFGHIJKLMNOPQRSTUVWXYZabcdefghijklmnopqrstuvwxyz0123456789+/".toList.getD d 'A'

/-- Base64 characters of a byte string, '=' padded. -/
def b64Chars : List Nat → List Char
  | [] => []
  | [a] => [b64Digit (a / 4), b64Digit (a % 4 * 16), '=', '=']
  | [a, b] => [b64Digit (a / 4), b64Digit (a % 4 * 16 + b / 16), b64Digit (b % 16 * 4), '=']
  | a :: b :: c :: rest =>
    b64Digit (a / 4) :: b64Digit (a % 4 * 16 + b / 16) ::
      b64Digit (b % 16 * 4 + c / 64) :: b64Digit (c % 64) :: b64Chars rest

/-- `base64pad.encode`: multibase prefix 'M', then padded base64. -/
def b64padMultibase (bs : List Nat) : String := String.mk ('M' :: b64Chars bs)

/-- Plain padded base64, no multibase prefix. -/
def base64pad (bs : List Nat) : String := String.mk (b64Chars bs)

/-- JS `s.slice(1)`: drop the first character. -/
def sliceFrom1 (s : String) : String := String.mk (s.toList.drop 1)

/-- `base64pad.encode(bytes).slice(1)`, the `ChecksumSHA256` header value the
copier computes. -/
def checksumOf (bs : List Nat) : String := sliceFrom1 (b64padMultibase bs)

/-- Stripping the multibase prefix leaves exactly the plain base64 encoding. -/
theorem checksumOf_eq_base64pad (bs : List Nat) : checksumOf bs = base64pad bs := rfl

/-! ## Shard hasher (`packages/functions/src/hash.ts`) -/

/-- Incremental hasher state: the bytes absorbed so far.  `hash.update(chunk)`
appends; `hash.digest()` is SHA-256 of everything absorbed. -/
def hasherUpdate (st chunk : List Nat) : List Nat := st ++ chunk

/-- Digest of the streamed body: each chunk fed to `hash.update`, then
`hash.digest()`. -/
def hashStream (chunks : List (List Nat)) : List Nat :=
  sha256Bytes (chunks.foldl hasherUpdate [])

/-- The hash handler's CID for a body streamed as `chunks`:
`Link.create(CAR_CODEC, Digest.create(sha256.code, hash.digest()))`. -/
def hashHandlerCid (chunks : List (List Nat)) : Cid :=
  linkCreate CAR_CODEC (digestCreate sha256Code (hashStream chunks))

theorem foldl_append_eq_flatten (l : List (List Nat)) (a : List Nat) :
    l.foldl (· ++ ·) a = a ++ l.flatten := by
  induction l generalizing a with
  | nil => simp
  | cons x xs ih => simp [List.foldl_cons, ih, List.append_assoc]

theorem hasherUpdate_foldl (chunks : List (List Nat)) :
    chunks.foldl hasherUpdate [] = chunks.flatten := by
  simpa [hasherUpdate] using foldl_append_eq_flatten chunks []

/-! ## Shard copier (`packages/functions/src/copy.ts`)

The copier's S3 calls are recorded as an event trace; responses that the code
consumes (HEAD outcome, GET body/length, upload ID, part ETags) come from an
oracle.  Concurrent tasks (`Promise.all`, the stream tee) are serialized in
the trace; each claim below only constrains the relative order within one
task, which the serialization preserves. -/

/-- An object locator (`ObjectID` in `copy.ts`); credentials and endpoint are
only forwarded to the client constructor, so the model keeps just the
addressing fields. -/
structure ObjectID where
  region : String
  bucket : String
  key : String
deriving DecidableEq, Repr

/-- `ShardObjectID`: an `ObjectID` whose content is named by a CAR cid. -/
structure ShardObjectID where
  region : String
  bucket : String
  key : String
  cid : Cid
deriving DecidableEq, Repr

/-- `ShardSource`: a shard object together with its content length and its
body as the list of chunks the stream delivers. -/
structure ShardSource where
  region : String
  bucket : String
  key : String
  cid : Cid
  size : Nat
  body : List (List Nat)
deriving DecidableEq, Repr

/-- A recorded part (`CompletedPart`): ETag from the response (possibly
absent), the part number and the checksum sent. -/
structure CompletedPart where
  etag : Option String
  partNumber : Nat
  checksum : String
deriving DecidableEq, Repr

/-- The S3 calls the copier issues, with the request fields the code sets. -/
inductive S3Event where
  | headObject (bucket key : String)
  | getObject (bucket key : String)
  | putObject (bucket key : String) (body : List Nat)
      (contentLength : Option Nat) (checksumSHA256 : Option String)
  | createMultipartUpload (bucket key : String)
  | uploadPart (uploadID : String) (partNumber : Nat) (bucket key : String)
      (body : List Nat) (contentLength : Nat) (checksumSHA256 : String)
  | completeMultipartUpload (bucket key : String) (uploadID : String)
      (parts : List CompletedPart)
  | abortMultipartUpload (bucket key : String) (uploadID : String)
deriving DecidableEq, Repr

/-- An HTTP-style response, as `errorResponse` / the handlers build it. -/
structure Response where
  statusCode : Nat
  body : String
deriving DecidableEq, Repr

/-- `errorResponse` from `lib/util.ts`. -/
def errorResponse (message : String) (statusCode : Nat) : Response :=
  ⟨statusCode, "\x7b\"ok\":false,\"error\":\"" ++ message ++ "\"\x7d"⟩

/-- The `{ok: true}` success body. -/
def okBody : String := "\x7b\"ok\":true\x7d"

/-- The reindexer's `{ok: true, updated: N}` success body. -/
def okUpdatedBody (n : Nat) : String :=
  "\x7b\"ok\":true,\"updated\":" ++ toString n ++ "\x7d"

def MAX_PUT_SIZE : Nat := 1024 * 1024 * 1024 * 5

def TARGET_PART_SIZE : Nat := 1024 * 1024 * 100

/-- `PartSource` as `uploadPart` receives it. -/
structure PartSource where
  uploadID : String
  partNumber : Nat
  body : List Nat
deriving DecidableEq, Repr

/-- `uploadPart`: sha256 the part body, send it with `ChecksumSHA256` and
`ContentLength`, and record `{ETag, PartNumber, ChecksumSHA256}`.  `etags`
supplies the response ETag per part number. -/
def uploadPart (etags : Nat → Option String) (src : PartSource) (dest : ObjectID) :
    CompletedPart × S3Event :=
  let checksum := checksumOf (sha256Bytes src.body)
  (⟨etags src.partNumber, src.partNumber, checksum⟩,
   .uploadPart src.uploadID src.partNumber dest.bucket dest.key src.body
     src.body.length checksum)

/-- State of the multipart `WritableStream`: the byte-rope buffer, the bytes
fed to the incremental hasher, the completed parts, and the trace so far. -/
structure MultipartState where
  buffer : List Nat
  hasher : List Nat
  parts : List CompletedPart
  events : List S3Event
deriving Repr

/-- The `write(chunk)` callback: append to buffer and hasher; once the buffer
holds at least `TARGET_PART_SIZE`, upload it as the part numbered by the
current length of the parts list and clear the buffer. -/
def multipartWrite (etags : Nat → Option String) (uploadID : String)
    (dest : ObjectID) (st : MultipartState) (chunk : List Nat) : MultipartState :=
  let buffer := st.buffer ++ chunk
  let hasher := st.hasher ++ chunk
  if TARGET_PART_SIZE ≤ buffer.length then
    let pe := uploadPart etags ⟨uploadID, st.parts.length, buffer⟩ dest
    ⟨[], hasher, st.parts ++ [pe.1], st.events ++ [pe.2]⟩
  else
    ⟨buffer, hasher, st.parts, st.events⟩

/-- The `close()` callback: flush a non-empty buffer as a final part, finalize
the hash, and either abort (cid mismatch, compared via `toString`) or complete
the upload with the recorded parts. -/
def multipartClose (etags : Nat → Option String) (uploadID : String)
    (src : ShardSource) (dest : ObjectID) (st : MultipartState) :
    List S3Event × Option String :=
  let st :=
    if st.buffer.length ≠ 0 then
      let pe := uploadPart etags ⟨uploadID, st.parts.length, st.buffer⟩ dest
      ⟨[], st.hasher, st.parts ++ [pe.1], st.events ++ [pe.2]⟩
    else st
  let digest := digestCreate sha256Code (sha256Bytes st.hasher)
  if cidStr (linkCreate CAR_CODEC digest) ≠ cidStr src.cid then
    (st.events ++ [.abortMultipartUpload dest.bucket dest.key uploadID],
     some "integrity check failed")
  else
    (st.events ++ [.completeMultipartUpload dest.bucket dest.key uploadID st.parts],
     none)

/-- `writeCAR`: below `maxPutSize` (default 5 GiB) a single PUT carrying the
content length and a checksum derived from the caller-asserted cid; otherwise
a multipart upload driven by the chunk stream.  `uploadID?` is the
`CreateMultipartUpload` response; its absence is the thrown
`missing multipart upload ID`.  Returns the trace and the error, if any. -/
def writeCAR (etags : Nat → Option String) (uploadID? : Option String)
    (src : ShardSource) (dest : ObjectID) (maxPutSize? : Option Nat) :
    List S3Event × Option String :=
  let maxPutSize := maxPutSize?.getD MAX_PUT_SIZE
  if src.size < maxPutSize then
    ([.putObject dest.bucket dest.key src.body.flatten (some src.size)
        (some (checksumOf src.cid.multihash.digest))], none)
  else
    match uploadID? with
    | none => ([.createMultipartUpload dest.bucket dest.key],
               some "missing multipart upload ID")
    | some uploadID =>
      let st0 : MultipartState :=
        ⟨[], [], [], [.createMultipartUpload dest.bucket dest.key]⟩
      let st := src.body.foldl (multipartWrite etags uploadID dest) st0
      multipartClose etags uploadID src dest st

/-- A block as `CARReaderStream` emits it. -/
structure CarBlock where
  cid : Cid
  offset : Nat
  length : Nat
deriving DecidableEq, Repr

/-- Result of the destination HEAD: the object exists, or the request failed
with `err.$metadata?.httpStatusCode` (absent for non-HTTP failures). -/
inductive HeadResult where
  | found
  | failed (status : Option Nat)
deriving DecidableEq, Repr

/-- Oracle for the store responses one `copy` invocation consumes. -/
structure CopyOracle where
  head : HeadResult
  getBody : Option (List (List Nat))
  getContentLength : Option Nat
  blocks : List CarBlock
  idxser : List (Cid × Nat) → List Nat
  uploadID : Option String
  etags : Nat → Option String

/-- `writeCARIndex`: parse the teed body into blocks, feed `(cid, offset)`
pairs to the sorted index writer (`idxser` models its serialization), and PUT
the result bytes. -/
def writeCARIndex (o : CopyOracle) (dest : ObjectID) : List S3Event :=
  [.putObject dest.bucket dest.key
     (o.idxser (o.blocks.map (fun b => (b.cid, b.offset)))) none none]

/-- `copy`: HEAD the destination (exists → done; non-404 failure → 500); GET
the source (missing body / zero length → 404); then run the CAR write, the
index write and the zero-byte link PUT.  A `writeCAR` failure rejects the
`Promise.all` and surfaces via the handler's catch as a 500. -/
def copy (o : CopyOracle) (src : ShardObjectID)
    (dest indexDest linkDest : ObjectID) (maxPutSize? : Option Nat) :
    List S3Event × Response :=
  let headEv := S3Event.headObject dest.bucket dest.key
  match o.head with
  | .found => ([headEv], ⟨200, okBody⟩)
  | .failed status =>
    if status ≠ some 404 then
      ([headEv], errorResponse "Failed to determine if object exists at destination" 500)
    else
      let getEv := S3Event.getObject src.bucket src.key
      match o.getBody with
      | none => ([headEv, getEv], errorResponse "Object not found" 404)
      | some chunks =>
        match o.getContentLength with
        | none => ([headEv, getEv], errorResponse "Object has no size" 404)
        | some size =>
          if size = 0 then ([headEv, getEv], errorResponse "Object has no size" 404)
          else
            let ssrc : ShardSource :=
              ⟨src.region, src.bucket, src.key, src.cid, size, chunks⟩
            let w := writeCAR o.etags o.uploadID ssrc dest maxPutSize?
            ([headEv, getEv] ++ w.1 ++ writeCARIndex o indexDest
               ++ [S3Event.putObject linkDest.bucket linkDest.key [] none none],
             match w.2 with
             | some msg => errorResponse msg 500
             | none => ⟨200, okBody⟩)

/-! ## Shard reindexer (`packages/functions/src/index.ts`)

The block-index table is a map from the composite key
`(blockmultihash, carpath)` to the remaining attributes `(offset, length)`.
DynamoDB batch writes are modelled with an `unproc` oracle giving the
`UnprocessedItems` of each attempt; per the DynamoDB contract those are a
subset of the request, enforced here by filtering.  The pipeline stages run
concurrently in the source; the model performs the lookups against the
initial table and the row batches in order, which the claims below do not
distinguish. -/

/-- The composite primary key of the block index table. -/
structure TableKey where
  blockmultihash : String
  carpath : String
deriving DecidableEq, Repr

/-- An unmarshalled row (`BlockIndexItem`). -/
structure BlockIndexItem where
  blockmultihash : String
  carpath : String
  offset : Nat
  length : Nat
deriving DecidableEq, Repr

/-- The table: key to the non-key attribute values `(offset, length)`. -/
def Table : Type := TableKey → Option (Nat × Nat)

/-- A DynamoDB `WriteRequest`. -/
inductive WriteRequest where
  | putRequest (item : BlockIndexItem)
  | deleteRequest (key : TableKey)
deriving DecidableEq, Repr

/-- The key a write request addresses. -/
def writeKey : WriteRequest → TableKey
  | .putRequest item => ⟨item.blockmultihash, item.carpath⟩
  | .deleteRequest key => key

/-- Effect of one processed write request on the table. -/
def applyWrite (t : Table) (w : WriteRequest) : Table := fun k =>
  if k = writeKey w then
    match w with
    | .putRequest item => some (item.offset, item.length)
    | .deleteRequest _ => none
  else t k

/-- Effect of a list of processed write requests. -/
def applyWrites (t : Table) (ws : List WriteRequest) : Table :=
  ws.foldl applyWrite t

/-- The DynamoDB calls the reindexer issues. -/
inductive DynEvent where
  | batchGet (keys : List TableKey)
  | batchWrite (requests : List WriteRequest)
deriving DecidableEq, Repr

/-- Outcome of `writeItems`: the table after the processed writes, the trace,
and whether everything was processed within the retry budget. -/
structure WriteOutcome where
  table : Table
  events : List DynEvent
  ok : Bool

/-- One attempt plus up to `fuel` further attempts of a batch write.  Each
attempt sends `items`; the oracle's unprocessed subset survives to the next
attempt, everything else is applied to the table. -/
def writeItemsGo (unproc : List WriteRequest → Nat → List WriteRequest) :
    Nat → Nat → Table → List WriteRequest → WriteOutcome
  | 0, attempt, t, items =>
    let u := (unproc items attempt).filter (fun w => w ∈ items)
    let t2 := applyWrites t (items.filter (fun w => w ∉ u))
    ⟨t2, [.batchWrite items], u.isEmpty⟩
  | fuel + 1, attempt, t, items =>
    let u := (unproc items attempt).filter (fun w => w ∈ items)
    let t2 := applyWrites t (items.filter (fun w => w ∉ u))
    if u.isEmpty then ⟨t2, [.batchWrite items], true⟩
    else
      let r := writeItemsGo unproc fuel (attempt + 1) t2 u
      ⟨r.table, .batchWrite items :: r.events, r.ok⟩

/-- `writeItems` under `p-retry` with `retries: 2`: an initial attempt and up
to two retries resending only the unprocessed subset. -/
def writeItems (unproc : List WriteRequest → Nat → List WriteRequest)
    (t : Table) (items : List WriteRequest) : WriteOutcome :=
  writeItemsGo unproc 2 0 t items

/-- The legacy carpath of the source shard. -/
def legacyCarpath (src : ShardObjectID) : String :=
  src.region ++ "/" ++ src.bucket ++ "/" ++ src.key

/-- The canonical carpath rows are migrated to. -/
def canonicalCarpath (src : ShardObjectID) : String :=
  "auto/carpark-prod-0/" ++ cidStr src.cid ++ "/" ++ cidStr src.cid ++ ".car"

/-- Outcome of processing row batches. -/
structure RunOutcome where
  table : Table
  events : List DynEvent
  error : Option String
  updated : Nat

/-- The new rows of a batch: `{ ...b, carpath: canonical }` as put requests. -/
def putRequests (src : ShardObjectID) (batch : List BlockIndexItem) :
    List WriteRequest :=
  batch.map (fun b => WriteRequest.putRequest { b with carpath := canonicalCarpath src })

/-- The old keys of a batch: `(blockmultihash, carpath)` as delete requests. -/
def deleteRequests (batch : List BlockIndexItem) : List WriteRequest :=
  batch.map (fun b => WriteRequest.deleteRequest ⟨b.blockmultihash, b.carpath⟩)

/-- One 25-row batch: put the rows back with the canonical carpath, then — and
only after every put was processed — delete the old keys; either phase
exhausting its retries is fatal for the batch. -/
def processBatch (unproc : List WriteRequest → Nat → List WriteRequest)
    (src : ShardObjectID) (t : Table) (batch : List BlockIndexItem) : RunOutcome :=
  let w1 := writeItems unproc t (putRequests src batch)
  if w1.ok then
    let w2 := writeItems unproc w1.table (deleteRequests batch)
    if w2.ok then ⟨w2.table, w1.events ++ w2.events, none, batch.length⟩
    else ⟨w2.table, w1.events ++ w2.events, some "unprocessed items", 0⟩
  else ⟨w1.table, w1.events, some "unprocessed items", 0⟩

/-- Process the row batches in order, stopping at the first failing batch. -/
def runBatches (unproc : List WriteRequest → Nat → List WriteRequest)
    (src : ShardObjectID) (t : Table) :
    List (List BlockIndexItem) → RunOutcome
  | [] => ⟨t, [], none, 0⟩
  | batch :: rest =>
    let r := processBatch unproc src t batch
    match r.error with
    | some e => ⟨r.table, r.events, some e, r.updated⟩
    | none =>
      let rr := runBatches unproc src r.table rest
      ⟨rr.table, r.events ++ rr.events, rr.error, r.updated + rr.updated⟩

/-- The `Batcher` transform: batches of `size`, flushing a final partial
batch; `cur` is the current batch reversed. -/
def batchAcc {α : Type} (size : Nat) (cur : List α) : List α → List (List α)
  | [] => if cur.isEmpty then [] else [cur.reverse]
  | b :: bs =>
    let cur2 := b :: cur
    if size ≤ cur2.length then cur2.reverse :: batchAcc size [] bs
    else batchAcc size cur2 bs

/-- Split a list into batches of at most `size`. -/
def batchList {α : Type} (size : Nat) (l : List α) : List (List α) :=
  batchAcc size [] l

/-- The `BatchGetItem` key for a multihash: base58btc of the multihash bytes
with the legacy carpath. -/
def legacyKey (src : ShardObjectID) (mh : Multihash) : TableKey :=
  ⟨base58btc (mhBytes mh), legacyCarpath src⟩

/-- A `BatchGetItem` lookup in the table: rows present at the requested keys
are returned, missing ones are silently absent from the response. -/
def batchGetRows (t : Table) (keys : List TableKey) : List BlockIndexItem :=
  keys.filterMap (fun k =>
    (t k).map (fun v => ⟨k.blockmultihash, k.carpath, v.1, v.2⟩))

/-- `index`: batch the multihashes by 100, point-look-up each batch at the
legacy carpath, batch the found rows by 25, rewrite each batch (put canonical,
delete legacy), and report the number of rows rewritten. -/
def index (unproc : List WriteRequest → Nat → List WriteRequest)
    (src : ShardObjectID) (t0 : Table) (mhs : List Multihash) :
    Table × List DynEvent × Response :=
  let mhBatches := batchList 100 mhs
  let keyBatches := mhBatches.map (fun batch => batch.map (legacyKey src))
  let getEvents := keyBatches.map DynEvent.batchGet
  let rows := (keyBatches.map (batchGetRows t0)).flatten
  let run := runBatches unproc src t0 (batchList 25 rows)
  match run.error with
  | some e => (run.table, getEvents ++ run.events, errorResponse e 500)
  | none => (run.table, getEvents ++ run.events, ⟨200, okUpdatedBody run.updated⟩)

/-- Result of the GET on the side index object `{src.key}.idx`: a successful
response (whose parsed entries' multihashes the reader yields; `none` models a
missing `Body`), or a failure with `err.$metadata?.httpStatusCode`. -/
inductive IdxGetResult where
  | success (entries : Option (List Multihash))
  | failure (status : Option Nat)
deriving DecidableEq, Repr

/-- `shardMultihashes`: prefer the side index at `{src.key}.idx`; only a 404
falls back to streaming the shard through the CAR parser (`shardBody` is its
parsed block list, `none` a missing body); any other failure — including a
successful GET without a body, whose thrown error carries no 404 metadata —
is fatal. -/
def shardMultihashes (idxRes : IdxGetResult) (shardBody : Option (List CarBlock))
    (src : ShardObjectID) : Except String (List S3Event × List Multihash) :=
  let idxKey := src.key ++ ".idx"
  match idxRes with
  | .success (some mhs) => .ok ([.getObject src.bucket idxKey], mhs)
  | .success none => .error ("failed to read index: " ++ idxKey)
  | .failure status =>
    if status ≠ some 404 then .error ("failed to read index: " ++ idxKey)
    else
      match shardBody with
      | none => .error "missing body"
      | some blocks =>
        .ok ([.getObject src.bucket idxKey, .getObject src.bucket src.key],
             blocks.map (fun b => b.cid.multihash))

/-! ## Specification of the multipart buffering loop

`partsSpec buf chunks` computes, purely, the part bodies the buffering loop
uploads and the leftover buffer at end of stream. -/

/-- Part bodies flushed by the buffering loop, and the final buffer. -/
def partsSpec : List Nat → List (List Nat) → List (List Nat) × List Nat
  | buf, [] => ([], buf)
  | buf, c :: cs =>
    let b2 := buf ++ c
    if TARGET_PART_SIZE ≤ b2.length then
      let r := partsSpec [] cs
      (b2 :: r.1, r.2)
    else partsSpec b2 cs

/-- The completed-part records for `bodies` numbered from `start`. -/
def mkParts (etags : Nat → Option String) (start : Nat) :
    List (List Nat) → List CompletedPart
  | [] => []
  | b :: bs => ⟨etags start, start, checksumOf (sha256Bytes b)⟩ ::
      mkParts etags (start + 1) bs

/-- The `UploadPart` events for `bodies` numbered from `start`. -/
def mkUploadEvents (uploadID : String) (dest : ObjectID) (start : Nat) :
    List (List Nat) → List S3Event
  | [] => []
  | b :: bs =>
    S3Event.uploadPart uploadID start dest.bucket dest.key b b.length
      (checksumOf (sha256Bytes b)) :: mkUploadEvents uploadID dest (start + 1) bs

/-- All part bodies of a multipart upload of `chunks`, the non-empty leftover
flushed as a final part. -/
def mpBodies (chunks : List (List Nat)) : List (List Nat) :=
  let ps := partsSpec [] chunks
  ps.1 ++ (if ps.2.isEmpty then [] else [ps.2])

/-- The part number of an event, when it is an `UploadPart`. -/
def numOfEvent : S3Event → Option Nat
  | .uploadPart _ n _ _ _ _ _ => some n
  | _ => none

/-- The part body of an event, when it is an `UploadPart`. -/
def bodyOfEvent : S3Event → Option (List Nat)
  | .uploadPart _ _ _ _ body _ _ => some body
  | _ => none

/-- Part numbers carried by the `UploadPart` events of a trace. -/
def uploadNums (evts : List S3Event) : List Nat := evts.filterMap numOfEvent

/-- Part bodies carried by the `UploadPart` events of a trace. -/
def uploadBodies (evts : List S3Event) : List (List Nat) := evts.filterMap bodyOfEvent

theorem mkParts_append (etags : Nat → Option String) (start : Nat)
    (bs1 bs2 : List (List Nat)) :
    mkParts etags start (bs1 ++ bs2) =
      mkParts etags start bs1 ++ mkParts etags (start + bs1.length) bs2 := by
  induction bs1 generalizing start with
  | nil => simp [mkParts]
  | cons b bs ih =>
    simp only [List.cons_append, mkParts, List.length_cons, List.append_eq]
    have h : start + 1 + bs.length = start + (bs.length + 1) := by omega
    rw [ih (start + 1), h]

theorem mkUploadEvents_append (uploadID : String) (dest : ObjectID) (start : Nat)
    (bs1 bs2 : List (List Nat)) :
    mkUploadEvents uploadID dest start (bs1 ++ bs2) =
      mkUploadEvents uploadID dest start bs1 ++
        mkUploadEvents uploadID dest (start + bs1.length) bs2 := by
  induction bs1 generalizing start with
  | nil => simp [mkUploadEvents]
  | cons b bs ih =>
    simp only [List.cons_append, mkUploadEvents, List.length_cons, List.append_eq]
    have h : start + 1 + bs.length = start + (bs.length + 1) := by omega
    rw [ih (start + 1), h]

/-- The buffering loop, run over `chunks` from state `st`, flushes exactly the
parts `partsSpec` predicts, numbered from the current parts-list length. -/
theorem multipart_foldl_spec (etags : Nat → Option String) (uploadID : String)
    (dest : ObjectID) (chunks : List (List Nat)) (st : MultipartState) :
    (chunks.foldl (multipartWrite etags uploadID dest) st).buffer =
        (partsSpec st.buffer chunks).2 ∧
    (chunks.foldl (multipartWrite etags uploadID dest) st).hasher =
        st.hasher ++ chunks.flatten ∧
    (chunks.foldl (multipartWrite etags uploadID dest) st).parts =
        st.parts ++ mkParts etags st.parts.length (partsSpec st.buffer chunks).1 ∧
    (chunks.foldl (multipartWrite etags uploadID dest) st).events =
        st.events ++
          mkUploadEvents uploadID dest st.parts.length (partsSpec st.buffer chunks).1 := by
  induction chunks generalizing st with
  | nil => simp [partsSpec, mkParts, mkUploadEvents]
  | cons c cs ih =>
    simp only [List.foldl_cons, multipartWrite, uploadPart, partsSpec]
    by_cases hf : TARGET_PART_SIZE ≤ (st.buffer ++ c).length
    · simp only [if_pos hf]
      obtain ⟨h1, h2, h3, h4⟩ := ih
        ⟨[], st.hasher ++ c,
         st.parts ++ [⟨etags st.parts.length, st.parts.length,
           checksumOf (sha256Bytes (st.buffer ++ c))⟩],
         st.events ++ [.uploadPart uploadID st.parts.length dest.bucket dest.key
           (st.buffer ++ c) (st.buffer ++ c).length
           (checksumOf (sha256Bytes (st.buffer ++ c)))]⟩
      refine ⟨by simpa using h1, by simpa [List.append_assoc] using h2, ?_, ?_⟩
      · simp only at h3
        rw [h3]
        simp [mkParts, List.append_assoc]
      · simp only at h4
        rw [h4]
        simp [mkUploadEvents, List.append_assoc]
    · simp only [if_neg hf]
      obtain ⟨h1, h2, h3, h4⟩ := ih ⟨st.buffer ++ c, st.hasher ++ c, st.parts, st.events⟩
      exact ⟨by simpa using h1, by simpa [List.append_assoc] using h2,
        by simpa using h3, by simpa using h4⟩

/-- The part bodies and the leftover buffer together are exactly the streamed
bytes. -/
theorem partsSpec_flatten (buf : List Nat) (chunks : List (List Nat)) :
    (partsSpec buf chunks).1.flatten ++ (partsSpec buf chunks).2 =
      buf ++ chunks.flatten := by
  induction chunks generalizing buf with
  | nil => simp [partsSpec]
  | cons c cs ih =>
    simp only [partsSpec]
    by_cases hf : TARGET_PART_SIZE ≤ (buf ++ c).length
    · simp only [if_pos hf, List.flatten_cons, List.append_assoc]
      have h := ih []
      simp only [List.nil_append] at h
      rw [h]
    · simp only [if_neg hf]
      rw [ih (buf ++ c)]
      simp [List.append_assoc]

/-- Every part the loop flushes mid-stream reached the target size. -/
theorem partsSpec_bodies_ge (buf : List Nat) (chunks : List (List Nat)) :
    ∀ b ∈ (partsSpec buf chunks).1, TARGET_PART_SIZE ≤ b.length := by
  induction chunks generalizing buf with
  | nil => simp [partsSpec]
  | cons c cs ih =>
    simp only [partsSpec]
    by_cases hf : TARGET_PART_SIZE ≤ (buf ++ c).length
    · simp only [if_pos hf]
      intro b hb
      rcases List.mem_cons.mp hb with h | h
      · exact h ▸ hf
      · exact ih [] b h
    · simp only [if_neg hf]
      exact ih (buf ++ c)

theorem mkParts_length (etags : Nat → Option String) (start : Nat)
    (bodies : List (List Nat)) : (mkParts etags start bodies).length = bodies.length := by
  induction bodies generalizing start with
  | nil => rfl
  | cons b bs ih => simp [mkParts, ih]

theorem mem_mkUploadEvents (uploadID : String) (dest : ObjectID) (start : Nat)
    (bodies : List (List Nat)) (e : S3Event) (he : e ∈ mkUploadEvents uploadID dest start bodies) :
    ∃ n b, b ∈ bodies ∧
      e = S3Event.uploadPart uploadID n dest.bucket dest.key b b.length
        (checksumOf (sha256Bytes b)) := by
  induction bodies generalizing start with
  | nil => simp [mkUploadEvents] at he
  | cons b bs ih =>
    rcases List.mem_cons.mp he with h | h
    · exact ⟨start, b, List.mem_cons_self b bs, h⟩
    · obtain ⟨n, b2, hb2, he2⟩ := ih (start + 1) h
      exact ⟨n, b2, List.mem_cons_of_mem b hb2, he2⟩

theorem uploadNums_mkUploadEvents (uploadID : String) (dest : ObjectID)
    (start : Nat) (bodies : List (List Nat)) :
    uploadNums (mkUploadEvents uploadID dest start bodies) =
      List.range' start bodies.length := by
  induction bodies generalizing start with
  | nil => rfl
  | cons b bs ih =>
    simp only [mkUploadEvents, uploadNums, List.filterMap_cons, numOfEvent,
      List.length_cons, List.range']
    rw [← uploadNums, ih (start + 1)]

theorem uploadBodies_mkUploadEvents (uploadID : String) (dest : ObjectID)
    (start : Nat) (bodies : List (List Nat)) :
    uploadBodies (mkUploadEvents uploadID dest start bodies) = bodies := by
  induction bodies generalizing start with
  | nil => rfl
  | cons b bs ih =>
    simp only [mkUploadEvents, uploadBodies, List.filterMap_cons, bodyOfEvent]
    rw [← uploadBodies, ih (start + 1)]

/-- The CID the multipart path computes from the streamed bytes. -/
def streamCid (chunks : List (List Nat)) : Cid :=
  linkCreate CAR_CODEC (digestCreate sha256Code (sha256Bytes chunks.flatten))

/-- On the multipart path, `writeCAR` emits exactly: create, the uploads of
the `partsSpec` bodies (leftover flushed last), then an abort on cid mismatch
or a complete carrying the recorded parts. -/
theorem writeCAR_multipart_trace (etags : Nat → Option String) (uploadID : String)
    (src : ShardSource) (dest : ObjectID) (mps : Option Nat)
    (h : ¬ src.size < mps.getD MAX_PUT_SIZE) :
    writeCAR etags (some uploadID) src dest mps =
      (S3Event.createMultipartUpload dest.bucket dest.key ::
        (mkUploadEvents uploadID dest 0 (mpBodies src.body) ++
          (if cidStr (streamCid src.body) ≠ cidStr src.cid then
             [S3Event.abortMultipartUpload dest.bucket dest.key uploadID]
           else
             [S3Event.completeMultipartUpload dest.bucket dest.key uploadID
                (mkParts etags 0 (mpBodies src.body))])),
       if cidStr (streamCid src.body) ≠ cidStr src.cid then
         some "integrity check failed" else none) := by
  obtain ⟨h1, h2, h3, h4⟩ := multipart_foldl_spec etags uploadID dest src.body
    ⟨[], [], [], [.createMultipartUpload dest.bucket dest.key]⟩
  simp only [List.nil_append, List.length_nil] at h1 h2 h3 h4
  simp only [writeCAR, multipartClose, if_neg h]
  rw [h1, h2, h3, h4]
  by_cases hleft : (partsSpec [] src.body).2.length ≠ 0
  · simp only [if_pos hleft, uploadPart, streamCid, mpBodies,
      List.isEmpty_iff]
    have hne : ¬ (partsSpec [] src.body).2 = [] := by
      intro hc
      exact hleft (by simp [hc])
    rw [if_neg hne]
    rw [mkUploadEvents_append, mkParts_append, mkParts_length]
    simp only [mkUploadEvents, mkParts, List.append_assoc, Nat.zero_add]
    by_cases hcid : cidStr (linkCreate CAR_CODEC
        (digestCreate sha256Code (sha256Bytes src.body.flatten))) = cidStr src.cid
    · simp [hcid]
    · simp [hcid]
  · simp only [if_neg hleft, streamCid, mpBodies, List.isEmpty_iff]
    have heq : (partsSpec [] src.body).2 = [] := by
      rcases List.length_eq_zero.mp (by omega : (partsSpec [] src.body).2.length = 0)
        with h2
      exact h2
    rw [if_pos heq]
    rw [h2, h3, h4]
    by_cases hcid : cidStr (linkCreate CAR_CODEC
        (digestCreate sha256Code (sha256Bytes src.body.flatten))) = cidStr src.cid
    · simp [hcid]
    · simp [hcid]

@[simp] theorem uploadNums_append (l1 l2 : List S3Event) :
    uploadNums (l1 ++ l2) = uploadNums l1 ++ uploadNums l2 :=
  List.filterMap_append l1 l2 numOfEvent

@[simp] theorem uploadBodies_append (l1 l2 : List S3Event) :
    uploadBodies (l1 ++ l2) = uploadBodies l1 ++ uploadBodies l2 :=
  List.filterMap_append l1 l2 bodyOfEvent

@[simp] theorem uploadNums_create (b k : String) (l : List S3Event) :
    uploadNums (S3Event.createMultipartUpload b k :: l) = uploadNums l := rfl

@[simp] theorem uploadBodies_create (b k : String) (l : List S3Event) :
    uploadBodies (S3Event.createMultipartUpload b k :: l) = uploadBodies l := rfl

@[simp] theorem uploadNums_abort (b k u : String) :
    uploadNums [S3Event.abortMultipartUpload b k u] = [] := rfl

@[simp] theorem uploadBodies_abort (b k u : String) :
    uploadBodies [S3Event.abortMultipartUpload b k u] = [] := rfl

@[simp] theorem uploadNums_complete (b k u : String) (parts : List CompletedPart) :
    uploadNums [S3Event.completeMultipartUpload b k u parts] = [] := rfl

@[simp] theorem uploadBodies_complete (b k u : String) (parts : List CompletedPart) :
    uploadBodies [S3Event.completeMultipartUpload b k u parts] = [] := rfl

/-- All part bodies together are exactly the streamed bytes. -/
theorem mpBodies_flatten (chunks : List (List Nat)) :
    (mpBodies chunks).flatten = chunks.flatten := by
  have h := partsSpec_flatten [] chunks
  simp only [List.nil_append] at h
  simp only [mpBodies]
  by_cases he : (partsSpec [] chunks).2.isEmpty
  · rw [if_pos he]
    rw [List.isEmpty_iff] at he
    simpa [he] using h
  · rw [if_neg he]
    simpa using h

/-! ## Claim theorems for the copier and hasher -/

/-- C4: the hash handler returns a version-1 cid with codec 0x0202 whose
multihash has code 0x12, digest size 32, and digest sha256 of the whole
streamed body, computed incrementally over the chunks. -/
theorem hash_cid_spec (chunks : List (List Nat)) :
    (hashHandlerCid chunks).version = 1 ∧
    (hashHandlerCid chunks).codec = 0x0202 ∧
    (hashHandlerCid chunks).multihash.code = 0x12 ∧
    (hashHandlerCid chunks).multihash.size = 32 ∧
    (hashHandlerCid chunks).multihash.digest = sha256Bytes chunks.flatten := by
  refine ⟨rfl, rfl, rfl, ?_, ?_⟩
  · simp [hashHandlerCid, linkCreate, digestCreate, hashStream, sha256Bytes_length]
  · simp [hashHandlerCid, linkCreate, digestCreate, hashStream, hasherUpdate_foldl]

/-- C6: below `maxPutSize` the CAR is written with one single PUT carrying
`ContentLength = src.size` and `ChecksumSHA256` the base64 encoding of the
caller-asserted digest; at or above the threshold a multipart upload is used
and no single PUT is issued. -/
theorem writeCAR_sizeStrategy (etags : Nat → Option String) (uploadID? : Option String)
    (src : ShardSource) (dest : ObjectID) (mps : Option Nat) :
    (src.size < mps.getD MAX_PUT_SIZE →
      writeCAR etags uploadID? src dest mps =
        ([S3Event.putObject dest.bucket dest.key src.body.flatten (some src.size)
            (some (base64pad src.cid.multihash.digest))], none)) ∧
    (mps.getD MAX_PUT_SIZE ≤ src.size →
      (writeCAR etags uploadID? src dest mps).1.head? =
        some (S3Event.createMultipartUpload dest.bucket dest.key) ∧
      ∀ bkt k body cl cks,
        S3Event.putObject bkt k body cl cks ∉ (writeCAR etags uploadID? src dest mps).1) := by
  constructor
  · intro hlt
    simp [writeCAR, hlt]
    rfl
  · intro hge
    have hnlt : ¬ src.size < mps.getD MAX_PUT_SIZE := Nat.not_lt.mpr hge
    rcases uploadID? with _ | uploadID
    · constructor
      · simp [writeCAR, hnlt]
      · intro bkt k body cl cks hmem
        simp [writeCAR, hnlt] at hmem
    · rw [writeCAR_multipart_trace etags uploadID src dest mps hnlt]
      refine ⟨rfl, ?_⟩
      intro bkt k body cl cks hmem
      rcases List.mem_cons.mp hmem with hc | hc
      · simp at hc
      · rcases List.mem_append.mp hc with hc2 | hc2
        · obtain ⟨n, b, _, he⟩ := mem_mkUploadEvents _ _ _ _ _ hc2
          simp at he
        · by_cases hcid : cidStr (streamCid src.body) ≠ cidStr src.cid
          · rw [if_pos hcid] at hc2
            simp at hc2
          · rw [if_neg hcid] at hc2
            simp at hc2

/-- C1: on the multipart path, when the cid of the streamed bytes does not
match the caller-asserted shard cid, `writeCAR` fails with the integrity
error, issues `AbortMultipartUpload`, and never issues
`CompleteMultipartUpload`. -/
theorem writeCAR_multipart_integrity (etags : Nat → Option String) (uploadID : String)
    (src : ShardSource) (dest : ObjectID) (mps : Option Nat)
    (h : ¬ src.size < mps.getD MAX_PUT_SIZE)
    (hne : cidStr (streamCid src.body) ≠ cidStr src.cid) :
    (writeCAR etags (some uploadID) src dest mps).2 = some "integrity check failed" ∧
    S3Event.abortMultipartUpload dest.bucket dest.key uploadID ∈
      (writeCAR etags (some uploadID) src dest mps).1 ∧
    ∀ bkt k uid parts, S3Event.completeMultipartUpload bkt k uid parts ∉
      (writeCAR etags (some uploadID) src dest mps).1 := by
  rw [writeCAR_multipart_trace etags uploadID src dest mps h]
  rw [if_pos hne, if_pos hne]
  refine ⟨rfl, ?_, ?_⟩
  · simp
  · intro bkt k uid parts hmem
    rcases List.mem_cons.mp hmem with hc | hc
    · simp at hc
    · rcases List.mem_append.mp hc with hc2 | hc2
      · obtain ⟨n, b, _, he⟩ := mem_mkUploadEvents _ _ _ _ _ hc2
        simp at he
      · simp at hc2

/-- C7: multipart parts are numbered densely from 0 in stream order, each
`UploadPart` carries the body's length and the base64 sha256 of the body, the
concatenation of the part bodies is the streamed byte sequence, every part
except possibly the last is at least `TARGET_PART_SIZE`, and no part is
empty. -/
theorem writeCAR_multipart_partsSpec (etags : Nat → Option String) (uploadID : String)
    (src : ShardSource) (dest : ObjectID) (mps : Option Nat)
    (h : ¬ src.size < mps.getD MAX_PUT_SIZE) :
    uploadNums (writeCAR etags (some uploadID) src dest mps).1 =
      List.range (uploadBodies (writeCAR etags (some uploadID) src dest mps).1).length ∧
    (uploadBodies (writeCAR etags (some uploadID) src dest mps).1).flatten =
      src.body.flatten ∧
    (∀ e ∈ (writeCAR etags (some uploadID) src dest mps).1,
      ∀ uid n bkt k body len cks, e = S3Event.uploadPart uid n bkt k body len cks →
        uid = uploadID ∧ bkt = dest.bucket ∧ k = dest.key ∧
        len = body.length ∧ cks = checksumOf (sha256Bytes body)) ∧
    (∀ b ∈ (uploadBodies (writeCAR etags (some uploadID) src dest mps).1).dropLast,
      TARGET_PART_SIZE ≤ b.length) ∧
    (∀ b ∈ uploadBodies (writeCAR etags (some uploadID) src dest mps).1, b ≠ []) := by
  rw [writeCAR_multipart_trace etags uploadID src dest mps h]
  have htail : uploadNums (if cidStr (streamCid src.body) ≠ cidStr src.cid then
        [S3Event.abortMultipartUpload dest.bucket dest.key uploadID]
      else [S3Event.completeMultipartUpload dest.bucket dest.key uploadID
        (mkParts etags 0 (mpBodies src.body))]) = [] := by
    by_cases hcid : cidStr (streamCid src.body) ≠ cidStr src.cid
    · rw [if_pos hcid]; rfl
    · rw [if_neg hcid]; rfl
  have htailB : uploadBodies (if cidStr (streamCid src.body) ≠ cidStr src.cid then
        [S3Event.abortMultipartUpload dest.bucket dest.key uploadID]
      else [S3Event.completeMultipartUpload dest.bucket dest.key uploadID
        (mkParts etags 0 (mpBodies src.body))]) = [] := by
    by_cases hcid : cidStr (streamCid src.body) ≠ cidStr src.cid
    · rw [if_pos hcid]; rfl
    · rw [if_neg hcid]; rfl
  have hnums : uploadNums (S3Event.createMultipartUpload dest.bucket dest.key ::
      (mkUploadEvents uploadID dest 0 (mpBodies src.body) ++
        (if cidStr (streamCid src.body) ≠ cidStr src.cid then
          [S3Event.abortMultipartUpload dest.bucket dest.key uploadID]
        else [S3Event.completeMultipartUpload dest.bucket dest.key uploadID
          (mkParts etags 0 (mpBodies src.body))]))) = List.range' 0 (mpBodies src.body).length := by
    rw [uploadNums_create, uploadNums_append, htail, uploadNums_mkUploadEvents]
    simp
  have hbodies : uploadBodies (S3Event.createMultipartUpload dest.bucket dest.key ::
      (mkUploadEvents uploadID dest 0 (mpBodies src.body) ++
        (if cidStr (streamCid src.body) ≠ cidStr src.cid then
          [S3Event.abortMultipartUpload dest.bucket dest.key uploadID]
        else [S3Event.completeMultipartUpload dest.bucket dest.key uploadID
          (mkParts etags 0 (mpBodies src.body))]))) = mpBodies src.body := by
    rw [uploadBodies_create, uploadBodies_append, htailB, uploadBodies_mkUploadEvents]
    simp
  refine ⟨?_, ?_, ?_, ?_, ?_⟩
  · rw [hnums, hbodies, List.range_eq_range']
  · rw [hbodies, mpBodies_flatten]
  · intro e he uid n bkt k body len cks heq
    rcases List.mem_cons.mp he with hc | hc
    · rw [heq] at hc
      simp at hc
    · rcases List.mem_append.mp hc with hc2 | hc2
      · obtain ⟨n2, b2, _, he2⟩ := mem_mkUploadEvents _ _ _ _ _ hc2
        rw [heq] at he2
        obtain ⟨e1, e2, e3, e4, e5, e6, e7⟩ := S3Event.uploadPart.inj he2
        exact ⟨e1, e3, e4, by rw [e6, e5], by rw [e7, e5]⟩
      · by_cases hcid : cidStr (streamCid src.body) ≠ cidStr src.cid
        · rw [if_pos hcid] at hc2
          rw [heq] at hc2
          simp at hc2
        · rw [if_neg hcid] at hc2
          rw [heq] at hc2
          simp at hc2
  · rw [hbodies]
    simp only [mpBodies]
    by_cases he : (partsSpec [] src.body).2.isEmpty
    · rw [if_pos he]
      intro b hb
      simp only [List.append_nil] at hb
      exact partsSpec_bodies_ge [] src.body b ((List.dropLast_sublist _).subset hb)
    · rw [if_neg he]
      intro b hb
      rw [List.dropLast_concat] at hb
      exact partsSpec_bodies_ge [] src.body b hb
  · rw [hbodies]
    simp only [mpBodies]
    intro b hb
    rcases List.mem_append.mp hb with hc | hc
    · have := partsSpec_bodies_ge [] src.body b hc
      intro hnil
      rw [hnil] at this
      simp [TARGET_PART_SIZE] at this
    · by_cases he : (partsSpec [] src.body).2.isEmpty
      · rw [if_pos he] at hc
        simp at hc
      · rw [if_neg he] at hc
        rcases List.mem_singleton.mp hc with rfl
        simpa [List.isEmpty_iff] using he

/-- C10: on the single-PUT path the copier performs no local integrity
comparison — even when the streamed bytes do not hash to the asserted cid, the
write succeeds with the checksum derived from `src.cid.multihash.digest`, and
no multipart abort can occur. -/
theorem writeCAR_small_noLocalCheck (etags : Nat → Option String)
    (uploadID? : Option String) (src : ShardSource) (dest : ObjectID)
    (mps : Option Nat) (hsize : src.size < mps.getD MAX_PUT_SIZE)
    (hne : cidStr (streamCid src.body) ≠ cidStr src.cid) :
    (writeCAR etags uploadID? src dest mps).2 = none ∧
    (writeCAR etags uploadID? src dest mps).1 =
      [S3Event.putObject dest.bucket dest.key src.body.flatten (some src.size)
         (some (checksumOf src.cid.multihash.digest))] ∧
    ∀ bkt k uid, S3Event.abortMultipartUpload bkt k uid ∉
      (writeCAR etags uploadID? src dest mps).1 := by
  refine ⟨by simp [writeCAR, hsize], by simp [writeCAR, hsize], ?_⟩
  intro bkt k uid hmem
  simp [writeCAR, hsize] at hmem

/-- C3: `copy` HEADs the destination first; an existing object short-circuits
to success with no further calls, a non-404 HEAD failure stops with an error
and no further calls, and only a 404 proceeds to GET the source. -/
theorem copy_headCheck (o : CopyOracle) (src : ShardObjectID)
    (dest indexDest linkDest : ObjectID) (mps : Option Nat) :
    (o.head = HeadResult.found →
      copy o src dest indexDest linkDest mps =
        ([S3Event.headObject dest.bucket dest.key], ⟨200, okBody⟩)) ∧
    (∀ status, o.head = HeadResult.failed status → status ≠ some 404 →
      copy o src dest indexDest linkDest mps =
        ([S3Event.headObject dest.bucket dest.key],
         errorResponse "Failed to determine if object exists at destination" 500)) ∧
    (o.head = HeadResult.failed (some 404) →
      S3Event.getObject src.bucket src.key ∈
        (copy o src dest indexDest linkDest mps).1) := by
  refine ⟨?_, ?_, ?_⟩
  · intro hh
    simp [copy, hh]
  · intro status hh hs
    simp [copy, hh, hs]
  · intro hh
    simp only [copy, hh, ne_eq, not_true_eq_false, if_false]
    rcases o.getBody with _ | chunks
    · simp
    · rcases o.getContentLength with _ | size
      · simp
      · by_cases hz : size = 0
        · simp [hz]
        · simp [hz]

/-- C8: the reindexer's multihash enumeration GETs the side index
`{src.key}.idx` and uses its entries when present; a 404 falls back to
parsing the shard and emitting each block's cid multihash; any other failure
of the index GET is fatal. -/
theorem shardMultihashes_spec (idxRes : IdxGetResult)
    (shardBody : Option (List CarBlock)) (src : ShardObjectID) :
    (∀ mhs, idxRes = IdxGetResult.success (some mhs) →
      shardMultihashes idxRes shardBody src =
        .ok ([S3Event.getObject src.bucket (src.key ++ ".idx")], mhs)) ∧
    (∀ blocks, idxRes = IdxGetResult.failure (some 404) → shardBody = some blocks →
      shardMultihashes idxRes shardBody src =
        .ok ([S3Event.getObject src.bucket (src.key ++ ".idx"),
              S3Event.getObject src.bucket src.key],
             blocks.map (fun b => b.cid.multihash))) ∧
    (∀ status, idxRes = IdxGetResult.failure status → status ≠ some 404 →
      ∃ msg, shardMultihashes idxRes shardBody src = .error msg) := by
  refine ⟨?_, ?_, ?_⟩
  · intro mhs hh
    simp [shardMultihashes, hh]
  · intro blocks hh hb
    simp [shardMultihashes, hh, hb]
  · intro status hh hs
    exact ⟨"failed to read index: " ++ (src.key ++ ".idx"),
      by simp [shardMultihashes, hh, hs]⟩

/-! ## Batcher and batch-write lemmas -/

theorem batchAcc_flatten {α : Type} (size : Nat) (cur l : List α) :
    (batchAcc size cur l).flatten = cur.reverse ++ l := by
  induction l generalizing cur with
  | nil =>
    by_cases h : cur.isEmpty
    · rw [List.isEmpty_iff] at h
      simp [batchAcc, h]
    · simp [batchAcc, h]
  | cons x xs ih =>
    simp only [batchAcc]
    by_cases hf : size ≤ (x :: cur).length
    · rw [if_pos hf]
      simp [ih, List.append_assoc]
    · rw [if_neg hf]
      simp [ih]

theorem batchList_flatten {α : Type} (size : Nat) (l : List α) :
    (batchList size l).flatten = l := by
  simpa using batchAcc_flatten size [] l

theorem batchAcc_mem_length {α : Type} (size : Nat) (cur l : List α)
    (hc : cur.length < size) : ∀ b ∈ batchAcc size cur l, b.length ≤ size := by
  induction l generalizing cur with
  | nil =>
    intro b hb
    by_cases he : cur.isEmpty
    · simp [batchAcc, he] at hb
    · simp only [batchAcc, he, Bool.false_eq_true, if_false,
        List.mem_singleton] at hb
      rw [hb]
      simp
      omega
  | cons x xs ih =>
    intro b hb
    simp only [batchAcc] at hb
    by_cases hf : size ≤ (x :: cur).length
    · rw [if_pos hf] at hb
      rcases List.mem_cons.mp hb with h | h
      · rw [h]
        simp
        omega
      · exact ih [] (by simpa using Nat.lt_of_le_of_lt (Nat.zero_le _) hc) b h
    · rw [if_neg hf] at hb
      exact ih (x :: cur) (by simp at hf ⊢; omega) b hb

theorem applyWrite_frame (t : Table) (w : WriteRequest) (k : TableKey)
    (h : k ≠ writeKey w) : applyWrite t w k = t k := by
  simp [applyWrite, h]

theorem applyWrites_frame (ws : List WriteRequest) (t : Table) (k : TableKey)
    (h : ∀ w ∈ ws, k ≠ writeKey w) : applyWrites t ws k = t k := by
  induction ws generalizing t with
  | nil => rfl
  | cons w ws ih =>
    have step : applyWrites t (w :: ws) = applyWrites (applyWrite t w) ws := rfl
    rw [step, ih (applyWrite t w) (fun w2 hw2 => h w2 (List.mem_cons_of_mem w hw2)),
      applyWrite_frame t w k (h w (List.mem_cons_self w ws))]

theorem writeItemsGo_frame (unproc : List WriteRequest → Nat → List WriteRequest)
    (fuel : Nat) : ∀ (attempt : Nat) (t : Table) (items : List WriteRequest)
    (k : TableKey), (∀ w ∈ items, k ≠ writeKey w) →
    (writeItemsGo unproc fuel attempt t items).table k = t k := by
  induction fuel with
  | zero =>
    intro attempt t items k h
    exact applyWrites_frame _ t k (fun w hw => h w (List.mem_of_mem_filter hw))
  | succ fuel ih =>
    intro attempt t items k h
    simp only [writeItemsGo]
    by_cases hu : ((unproc items attempt).filter (fun w => w ∈ items)).isEmpty
    · rw [if_pos hu]
      exact applyWrites_frame _ t k (fun w hw => h w (List.mem_of_mem_filter hw))
    · rw [if_neg hu]
      dsimp only
      rw [ih _ _ _ k (fun w hw => h w (by simpa using (List.mem_filter.mp hw).2))]
      exact applyWrites_frame _ t k (fun w hw => h w (List.mem_of_mem_filter hw))

theorem writeItemsGo_events (unproc : List WriteRequest → Nat → List WriteRequest)
    (fuel : Nat) : ∀ (attempt : Nat) (t : Table) (items : List WriteRequest),
    ∀ e ∈ (writeItemsGo unproc fuel attempt t items).events,
      ∃ reqs, e = DynEvent.batchWrite reqs ∧ ∀ r ∈ reqs, r ∈ items := by
  induction fuel with
  | zero =>
    intro attempt t items e he
    simp only [writeItemsGo, List.mem_singleton] at he
    exact ⟨items, he, fun r hr => hr⟩
  | succ fuel ih =>
    intro attempt t items e he
    simp only [writeItemsGo] at he
    by_cases hu : ((unproc items attempt).filter (fun w => w ∈ items)).isEmpty
    · rw [if_pos hu] at he
      simp only [List.mem_singleton] at he
      exact ⟨items, he, fun r hr => hr⟩
    · rw [if_neg hu] at he
      simp only [List.mem_cons] at he
      rcases he with h | h
      · exact ⟨items, h, fun r hr => hr⟩
      · obtain ⟨reqs, he2, hsub⟩ := ih _ _ _ e h
        exact ⟨reqs, he2, fun r hr => by simpa using (List.mem_filter.mp (hsub r hr)).2⟩

theorem writeItemsGo_events_length (unproc : List WriteRequest → Nat → List WriteRequest)
    (fuel : Nat) : ∀ (attempt : Nat) (t : Table) (items : List WriteRequest),
    (writeItemsGo unproc fuel attempt t items).events.length ≤ fuel + 1 := by
  induction fuel with
  | zero => intro attempt t items; rfl
  | succ fuel ih =>
    intro attempt t items
    simp only [writeItemsGo]
    by_cases hu : ((unproc items attempt).filter (fun w => w ∈ items)).isEmpty
    · rw [if_pos hu]
      simp
    · rw [if_neg hu]
      have := ih (attempt + 1) (applyWrites t (items.filter
        (fun w => w ∉ (unproc items attempt).filter (fun w => w ∈ items))))
        ((unproc items attempt).filter (fun w => w ∈ items))
      simp only [List.length_cons]
      omega

theorem writeItemsGo_zero (unproc : List WriteRequest → Nat → List WriteRequest)
    (attempt : Nat) (t : Table) (items : List WriteRequest) :
    writeItemsGo unproc 0 attempt t items =
      ⟨applyWrites t (items.filter (fun w =>
          w ∉ (unproc items attempt).filter (fun w => w ∈ items))),
       [DynEvent.batchWrite items],
       ((unproc items attempt).filter (fun w => w ∈ items)).isEmpty⟩ := by
  simp only [writeItemsGo]

theorem writeItemsGo_succ_pos (unproc : List WriteRequest → Nat → List WriteRequest)
    (fuel attempt : Nat) (t : Table) (items : List WriteRequest)
    (h : ((unproc items attempt).filter (fun w => w ∈ items)).isEmpty) :
    writeItemsGo unproc (fuel + 1) attempt t items =
      ⟨applyWrites t (items.filter (fun w =>
          w ∉ (unproc items attempt).filter (fun w => w ∈ items))),
       [DynEvent.batchWrite items], true⟩ := by
  simp only [writeItemsGo]
  rw [if_pos h]

theorem writeItemsGo_succ_neg (unproc : List WriteRequest → Nat → List WriteRequest)
    (fuel attempt : Nat) (t : Table) (items : List WriteRequest)
    (h : ¬ ((unproc items attempt).filter (fun w => w ∈ items)).isEmpty) :
    writeItemsGo unproc (fuel + 1) attempt t items =
      ⟨(writeItemsGo unproc fuel (attempt + 1)
          (applyWrites t (items.filter (fun w =>
            w ∉ (unproc items attempt).filter (fun w => w ∈ items))))
          ((unproc items attempt).filter (fun w => w ∈ items))).table,
       DynEvent.batchWrite items ::
         (writeItemsGo unproc fuel (attempt + 1)
           (applyWrites t (items.filter (fun w =>
             w ∉ (unproc items attempt).filter (fun w => w ∈ items))))
           ((unproc items attempt).filter (fun w => w ∈ items))).events,
       (writeItemsGo unproc fuel (attempt + 1)
          (applyWrites t (items.filter (fun w =>
            w ∉ (unproc items attempt).filter (fun w => w ∈ items))))
          ((unproc items attempt).filter (fun w => w ∈ items))).ok⟩ := by
  simp only [writeItemsGo]
  rw [if_neg h]

/-- The retry discipline of `writeItems`: one attempt, then up to two retries
resending exactly the unprocessed subset of the previous attempt; unprocessed
items surviving the last retry are a failure. -/
theorem writeItems_attempts (unproc : List WriteRequest → Nat → List WriteRequest)
    (t : Table) (items : List WriteRequest) :
    ((unproc items 0).filter (fun w => w ∈ items) = [] →
      (writeItems unproc t items).events = [DynEvent.batchWrite items] ∧
      (writeItems unproc t items).ok = true) ∧
    (∀ u0, u0 = (unproc items 0).filter (fun w => w ∈ items) → u0 ≠ [] →
      (unproc u0 1).filter (fun w => w ∈ u0) = [] →
      (writeItems unproc t items).events =
        [DynEvent.batchWrite items, DynEvent.batchWrite u0] ∧
      (writeItems unproc t items).ok = true) ∧
    (∀ u0 u1, u0 = (unproc items 0).filter (fun w => w ∈ items) → u0 ≠ [] →
      u1 = (unproc u0 1).filter (fun w => w ∈ u0) → u1 ≠ [] →
      (writeItems unproc t items).events =
        [DynEvent.batchWrite items, DynEvent.batchWrite u0, DynEvent.batchWrite u1] ∧
      (writeItems unproc t items).ok =
        ((unproc u1 2).filter (fun w => w ∈ u1)).isEmpty) := by
  refine ⟨?_, ?_, ?_⟩
  · intro h0
    have hE : writeItems unproc t items =
        ⟨applyWrites t (items.filter (fun w =>
            w ∉ (unproc items 0).filter (fun w => w ∈ items))),
         [DynEvent.batchWrite items], true⟩ :=
      writeItemsGo_succ_pos unproc 1 0 t items (by simp [h0])
    rw [hE]
    exact ⟨rfl, rfl⟩
  · intro u0 hu0 hne0 h1
    have hne0b : ¬ ((unproc items 0).filter (fun w => w ∈ items)).isEmpty := by
      rw [← hu0]
      simpa [List.isEmpty_iff] using hne0
    have h1b : ((unproc u0 1).filter (fun w => w ∈ u0)).isEmpty := by
      simp [h1]
    have hE : writeItems unproc t items =
        ⟨(writeItemsGo unproc 1 1
            (applyWrites t (items.filter (fun w =>
              w ∉ (unproc items 0).filter (fun w => w ∈ items))))
            ((unproc items 0).filter (fun w => w ∈ items))).table,
         DynEvent.batchWrite items ::
           (writeItemsGo unproc 1 1
             (applyWrites t (items.filter (fun w =>
               w ∉ (unproc items 0).filter (fun w => w ∈ items))))
             ((unproc items 0).filter (fun w => w ∈ items))).events,
         (writeItemsGo unproc 1 1
            (applyWrites t (items.filter (fun w =>
              w ∉ (unproc items 0).filter (fun w => w ∈ items))))
            ((unproc items 0).filter (fun w => w ∈ items))).ok⟩ :=
      writeItemsGo_succ_neg unproc 1 0 t items hne0b
    rw [hE, ← hu0]
    rw [writeItemsGo_succ_pos unproc 0 1 _ u0 h1b]
    exact ⟨rfl, rfl⟩
  · intro u0 u1 hu0 hne0 hu1 hne1
    have hne0b : ¬ ((unproc items 0).filter (fun w => w ∈ items)).isEmpty := by
      rw [← hu0]
      simpa [List.isEmpty_iff] using hne0
    have hne1b : ¬ ((unproc u0 1).filter (fun w => w ∈ u0)).isEmpty := by
      rw [← hu1]
      simpa [List.isEmpty_iff] using hne1
    have hE : writeItems unproc t items =
        ⟨(writeItemsGo unproc 1 1
            (applyWrites t (items.filter (fun w =>
              w ∉ (unproc items 0).filter (fun w => w ∈ items))))
            ((unproc items 0).filter (fun w => w ∈ items))).table,
         DynEvent.batchWrite items ::
           (writeItemsGo unproc 1 1
             (applyWrites t (items.filter (fun w =>
               w ∉ (unproc items 0).filter (fun w => w ∈ items))))
             ((unproc items 0).filter (fun w => w ∈ items))).events,
         (writeItemsGo unproc 1 1
            (applyWrites t (items.filter (fun w =>
              w ∉ (unproc items 0).filter (fun w => w ∈ items))))
            ((unproc items 0).filter (fun w => w ∈ items))).ok⟩ :=
      writeItemsGo_succ_neg unproc 1 0 t items hne0b
    rw [hE, ← hu0]
    rw [writeItemsGo_succ_neg unproc 0 1 _ u0 hne1b]
    rw [writeItemsGo_zero unproc 2 _ ((unproc u0 1).filter (fun w => w ∈ u0)), ← hu1]
    exact ⟨rfl, rfl⟩

/-! ## Claim theorems for the reindexer -/

/-- C5: per rewrite batch, the put of the new canonical rows runs first (up to
three attempts, each resending only the unprocessed subset, remaining
unprocessed items fatal), the put phase contains only put requests, and the
legacy-key deletes are issued only if the put phase succeeded; a failed put
phase ends the batch with an error and no delete at all. -/
theorem reindex_putThenDelete (unproc : List WriteRequest → Nat → List WriteRequest)
    (src : ShardObjectID) (t : Table) (batch : List BlockIndexItem) :
    ((processBatch unproc src t batch).events =
      (writeItems unproc t (putRequests src batch)).events ++
        (if (writeItems unproc t (putRequests src batch)).ok then
          (writeItems unproc (writeItems unproc t (putRequests src batch)).table
            (deleteRequests batch)).events
        else [])) ∧
    (∀ e ∈ (writeItems unproc t (putRequests src batch)).events,
      ∃ reqs, e = DynEvent.batchWrite reqs ∧ ∀ r ∈ reqs, r ∈ putRequests src batch) ∧
    (writeItems unproc t (putRequests src batch)).events.length ≤ 3 ∧
    ((writeItems unproc t (putRequests src batch)).ok = false →
      (processBatch unproc src t batch).error = some "unprocessed items" ∧
      (processBatch unproc src t batch).events =
        (writeItems unproc t (putRequests src batch)).events) ∧
    ((unproc (putRequests src batch) 0).filter
        (fun w => w ∈ putRequests src batch) = [] →
      (writeItems unproc t (putRequests src batch)).events =
        [DynEvent.batchWrite (putRequests src batch)] ∧
      (writeItems unproc t (putRequests src batch)).ok = true) ∧
    (∀ u0, u0 = (unproc (putRequests src batch) 0).filter
        (fun w => w ∈ putRequests src batch) → u0 ≠ [] →
      (unproc u0 1).filter (fun w => w ∈ u0) = [] →
      (writeItems unproc t (putRequests src batch)).events =
        [DynEvent.batchWrite (putRequests src batch), DynEvent.batchWrite u0] ∧
      (writeItems unproc t (putRequests src batch)).ok = true) ∧
    (∀ u0 u1, u0 = (unproc (putRequests src batch) 0).filter
        (fun w => w ∈ putRequests src batch) → u0 ≠ [] →
      u1 = (unproc u0 1).filter (fun w => w ∈ u0) → u1 ≠ [] →
      (writeItems unproc t (putRequests src batch)).events =
        [DynEvent.batchWrite (putRequests src batch), DynEvent.batchWrite u0,
         DynEvent.batchWrite u1] ∧
      (writeItems unproc t (putRequests src batch)).ok =
        ((unproc u1 2).filter (fun w => w ∈ u1)).isEmpty) := by
  refine ⟨?_, ?_, ?_, ?_,
    (writeItems_attempts unproc t (putRequests src batch)).1,
    (writeItems_attempts unproc t (putRequests src batch)).2.1,
    (writeItems_attempts unproc t (putRequests src batch)).2.2⟩
  · by_cases h1 : (writeItems unproc t (putRequests src batch)).ok
    · by_cases h2 : (writeItems unproc
          (writeItems unproc t (putRequests src batch)).table (deleteRequests batch)).ok
      · simp [processBatch, h1, h2]
      · simp [processBatch, h1, h2]
    · simp [processBatch, h1]
  · intro e he
    exact writeItemsGo_events unproc 2 0 t (putRequests src batch) e he
  · exact writeItemsGo_events_length unproc 2 0 t (putRequests src batch)
  · intro h1
    constructor
    · simp [processBatch, h1]
    · simp [processBatch, h1]

theorem processBatch_frame (unproc : List WriteRequest → Nat → List WriteRequest)
    (src : ShardObjectID) (t : Table) (batch : List BlockIndexItem) (k : TableKey)
    (hleg : ∀ b ∈ batch, b.carpath = legacyCarpath src)
    (h1 : k.carpath ≠ legacyCarpath src) (h2 : k.carpath ≠ canonicalCarpath src) :
    (processBatch unproc src t batch).table k = t k := by
  have hput : ∀ w ∈ putRequests src batch, k ≠ writeKey w := by
    intro w hw
    simp only [putRequests, List.mem_map] at hw
    obtain ⟨b, hb, rfl⟩ := hw
    intro hk
    apply h2
    rw [hk]
    rfl
  have hdel : ∀ w ∈ deleteRequests batch, k ≠ writeKey w := by
    intro w hw
    simp only [deleteRequests, List.mem_map] at hw
    obtain ⟨b, hb, rfl⟩ := hw
    intro hk
    apply h1
    rw [hk, ← hleg b hb]
    rfl
  have hf1 : (writeItems unproc t (putRequests src batch)).table k = t k :=
    writeItemsGo_frame unproc 2 0 t (putRequests src batch) k hput
  by_cases hok : (writeItems unproc t (putRequests src batch)).ok
  · have hf2 : (writeItems unproc
        (writeItems unproc t (putRequests src batch)).table
        (deleteRequests batch)).table k =
        (writeItems unproc t (putRequests src batch)).table k :=
      writeItemsGo_frame unproc 2 0 _ (deleteRequests batch) k hdel
    by_cases hok2 : (writeItems unproc
        (writeItems unproc t (putRequests src batch)).table (deleteRequests batch)).ok
    · simp only [processBatch, hok, if_true, hok2]
      rw [hf2, hf1]
    · simp only [processBatch, hok, if_true, hok2]
      simp only [Bool.false_eq_true, if_false]
      rw [hf2, hf1]
  · simp only [processBatch, hok, Bool.false_eq_true, if_false]
    exact hf1

theorem runBatches_frame (unproc : List WriteRequest → Nat → List WriteRequest)
    (src : ShardObjectID) (batches : List (List BlockIndexItem)) (t : Table)
    (k : TableKey)
    (hleg : ∀ batch ∈ batches, ∀ b ∈ batch, b.carpath = legacyCarpath src)
    (h1 : k.carpath ≠ legacyCarpath src) (h2 : k.carpath ≠ canonicalCarpath src) :
    (runBatches unproc src t batches).table k = t k := by
  induction batches generalizing t with
  | nil => rfl
  | cons batch rest ih =>
    have hpb := processBatch_frame unproc src t batch k
      (hleg batch (List.mem_cons_self batch rest)) h1 h2
    simp only [runBatches]
    cases herr : (processBatch unproc src t batch).error with
    | some e => simp only [herr]; exact hpb
    | none =>
      simp only [herr]
      rw [ih (processBatch unproc src t batch).table
        (fun b2 hb2 => hleg b2 (List.mem_cons_of_mem batch hb2))]
      exact hpb

/-- Every row a `BatchGetItem` lookup returns carries the carpath of the key
that was looked up. -/
theorem batchGetRows_carpath (t : Table) (keys : List TableKey) :
    ∀ r ∈ batchGetRows t keys, ∃ k2 ∈ keys, r.carpath = k2.carpath := by
  intro r hr
  simp only [batchGetRows, List.mem_filterMap] at hr
  obtain ⟨k2, hk2, hmap⟩ := hr
  rcases Option.map_eq_some'.mp hmap with ⟨v, _, rfl⟩
  exact ⟨k2, hk2, rfl⟩

/-- C2: rows whose carpath is neither the legacy path nor the canonical path
keep exactly their attribute values across the whole reindex run: every
read, write and delete uses the full composite key. -/
theorem reindex_isolation (unproc : List WriteRequest → Nat → List WriteRequest)
    (src : ShardObjectID) (t0 : Table) (mhs : List Multihash) (k : TableKey)
    (h1 : k.carpath ≠ legacyCarpath src) (h2 : k.carpath ≠ canonicalCarpath src) :
    (index unproc src t0 mhs).1 k = t0 k := by
  have hleg : ∀ batch ∈ batchList 25 (((batchList 100 mhs).map
        (fun batch => batch.map (legacyKey src))).map (batchGetRows t0)).flatten,
      ∀ b ∈ batch, b.carpath = legacyCarpath src := by
    intro batch hb b hbb
    have hbR : b ∈ (((batchList 100 mhs).map
        (fun batch => batch.map (legacyKey src))).map (batchGetRows t0)).flatten := by
      rw [← batchList_flatten 25 (((batchList 100 mhs).map
        (fun batch => batch.map (legacyKey src))).map (batchGetRows t0)).flatten]
      exact List.mem_flatten.mpr ⟨batch, hb, hbb⟩
    rw [List.mem_flatten] at hbR
    obtain ⟨rows, hrows, hbrows⟩ := hbR
    simp only [List.mem_map] at hrows
    obtain ⟨keys, hkeys, rfl⟩ := hrows
    obtain ⟨mhBatch, _, rfl⟩ := hkeys
    obtain ⟨k2, hk2, hcp⟩ := batchGetRows_carpath t0 _ b hbrows
    simp only [List.mem_map] at hk2
    obtain ⟨mh, _, rfl⟩ := hk2
    exact hcp
  have hrun := runBatches_frame unproc src _ t0 k hleg h1 h2
  simp only [index]
  cases herr : (runBatches unproc src t0 (batchList 25 (((batchList 100 mhs).map
      (fun batch => batch.map (legacyKey src))).map (batchGetRows t0)).flatten)).error with
  | some e => simp only [herr]; exact hrun
  | none => simp only [herr]; exact hrun

theorem flatten_map_filterMap {α β : Type} (f : α → Option β) (ls : List (List α)) :
    (ls.map (List.filterMap f)).flatten = ls.flatten.filterMap f := by
  induction ls with
  | nil => rfl
  | cons l rest ih =>
    simp only [List.map_cons, List.flatten_cons, ih, List.filterMap_append]

theorem length_filterMap_map_eq {α β γ : Type} (h : α → Option β)
    (g : α → β → γ) (l : List α) :
    (l.filterMap (fun a => (h a).map (g a))).length = (l.filterMap h).length := by
  induction l with
  | nil => rfl
  | cons x xs ih =>
    cases hx : h x with
    | none => simp [List.filterMap_cons, hx, ih]
    | some v => simp [List.filterMap_cons, hx, ih]

/-- A batch that ends without error was fully rewritten: both write phases
succeeded and the batch counts all its rows, whatever retries the store
demanded along the way. -/
theorem processBatch_updated_of_ok (unproc : List WriteRequest → Nat → List WriteRequest)
    (src : ShardObjectID) (t : Table) (batch : List BlockIndexItem)
    (h : (processBatch unproc src t batch).error = none) :
    (processBatch unproc src t batch).updated = batch.length := by
  by_cases h1 : (writeItems unproc t (putRequests src batch)).ok
  · by_cases h2 : (writeItems unproc
        (writeItems unproc t (putRequests src batch)).table (deleteRequests batch)).ok
    · simp only [processBatch, h1, if_true, h2]
    · simp only [processBatch, h1, if_true, h2, Bool.false_eq_true, if_false] at h
      exact Option.noConfusion h
  · simp only [processBatch, h1, Bool.false_eq_true, if_false] at h
    exact Option.noConfusion h

/-- A run that ends without error rewrote every batch in full, so the total
is the number of rows that entered the rewrite stage. -/
theorem runBatches_updated_of_ok (unproc : List WriteRequest → Nat → List WriteRequest)
    (src : ShardObjectID) (batches : List (List BlockIndexItem)) : ∀ t : Table,
    (runBatches unproc src t batches).error = none →
    (runBatches unproc src t batches).updated = (batches.map List.length).sum := by
  induction batches with
  | nil => intro t _; rfl
  | cons batch rest ih =>
    intro t herr
    simp only [runBatches] at herr ⊢
    cases hpe : (processBatch unproc src t batch).error with
    | some e =>
      rw [hpe] at herr
      exact Option.noConfusion herr
    | none =>
      rw [hpe] at herr
      simp only at herr ⊢
      rw [List.map_cons, List.sum_cons, ih _ herr,
        processBatch_updated_of_ok unproc src t batch hpe]

theorem processBatch_events_batchWrite (unproc : List WriteRequest → Nat → List WriteRequest)
    (src : ShardObjectID) (t : Table) (batch : List BlockIndexItem) :
    ∀ e ∈ (processBatch unproc src t batch).events,
      ∃ reqs, e = DynEvent.batchWrite reqs := by
  intro e he
  by_cases h1 : (writeItems unproc t (putRequests src batch)).ok
  · by_cases h2 : (writeItems unproc
        (writeItems unproc t (putRequests src batch)).table (deleteRequests batch)).ok
    · simp only [processBatch, h1, if_true, h2] at he
      rcases List.mem_append.mp he with h | h
      · obtain ⟨reqs, hr, _⟩ := writeItemsGo_events unproc 2 0 t _ e h
        exact ⟨reqs, hr⟩
      · obtain ⟨reqs, hr, _⟩ := writeItemsGo_events unproc 2 0 _ _ e h
        exact ⟨reqs, hr⟩
    · simp only [processBatch, h1, if_true, h2, Bool.false_eq_true, if_false] at he
      rcases List.mem_append.mp he with h | h
      · obtain ⟨reqs, hr, _⟩ := writeItemsGo_events unproc 2 0 t _ e h
        exact ⟨reqs, hr⟩
      · obtain ⟨reqs, hr, _⟩ := writeItemsGo_events unproc 2 0 _ _ e h
        exact ⟨reqs, hr⟩
  · simp only [processBatch, h1, Bool.false_eq_true, if_false] at he
    obtain ⟨reqs, hr, _⟩ := writeItemsGo_events unproc 2 0 t _ e he
    exact ⟨reqs, hr⟩

theorem runBatches_events_batchWrite (unproc : List WriteRequest → Nat → List WriteRequest)
    (src : ShardObjectID) (batches : List (List BlockIndexItem)) : ∀ t : Table,
    ∀ e ∈ (runBatches unproc src t batches).events,
      ∃ reqs, e = DynEvent.batchWrite reqs := by
  induction batches with
  | nil => intro t e he; simp [runBatches] at he
  | cons batch rest ih =>
    intro t e he
    simp only [runBatches] at he
    cases herr : (processBatch unproc src t batch).error with
    | some msg =>
      rw [herr] at he
      simp only at he
      exact processBatch_events_batchWrite unproc src t batch e he
    | none =>
      rw [herr] at he
      simp only at he
      rcases List.mem_append.mp he with h | h
      · exact processBatch_events_batchWrite unproc src t batch e h
      · exact ih _ e h

/-- C9: legacy rows are looked up in batches of at most 100 using the
composite key `(base58btc(multihash.bytes), legacy carpath)`; multihashes
without a legacy row contribute nothing; and whenever the run succeeds
(status 200) the response body is `{ok: true, updated: N}` where `N` is the
number of rows found at the legacy carpath. -/
theorem reindex_updatedCount (unproc : List WriteRequest → Nat → List WriteRequest)
    (src : ShardObjectID) (t0 : Table) (mhs : List Multihash) :
    (∀ e ∈ (index unproc src t0 mhs).2.1, ∀ keys, e = DynEvent.batchGet keys →
      keys.length ≤ 100 ∧ ∀ k2 ∈ keys, ∃ mh ∈ mhs, k2 = legacyKey src mh) ∧
    ((index unproc src t0 mhs).2.2.statusCode = 200 →
      (index unproc src t0 mhs).2.2 =
        ⟨200, okUpdatedBody (mhs.filterMap (fun mh => t0 (legacyKey src mh))).length⟩) := by
  have hrows : (((batchList 100 mhs).map (fun batch => batch.map (legacyKey src))).map
      (batchGetRows t0)).flatten =
      mhs.filterMap (fun mh => (t0 (legacyKey src mh)).map
        (fun v => (⟨(legacyKey src mh).blockmultihash, (legacyKey src mh).carpath,
          v.1, v.2⟩ : BlockIndexItem))) := by
    rw [List.map_map]
    have hcomp : (batchGetRows t0 ∘ fun batch => batch.map (legacyKey src)) =
        List.filterMap (fun mh => (t0 (legacyKey src mh)).map
          (fun v => (⟨(legacyKey src mh).blockmultihash, (legacyKey src mh).carpath,
            v.1, v.2⟩ : BlockIndexItem))) := by
      funext batch
      simp only [batchGetRows, List.filterMap_map, Function.comp]
      rfl
    rw [hcomp, flatten_map_filterMap, batchList_flatten]
  constructor
  · intro e he keys hkeys
    simp only [index] at he
    cases herr : (runBatches unproc src t0 (batchList 25 (((batchList 100 mhs).map
        (fun batch => batch.map (legacyKey src))).map (batchGetRows t0)).flatten)).error with
    | some msg =>
      rw [herr] at he
      rcases List.mem_append.mp he with h | h
      · rw [List.map_map] at h
        rcases List.mem_map.mp h with ⟨mhBatch, hmb, hkeq⟩
        rw [hkeys] at hkeq
        have hkeq2 : mhBatch.map (legacyKey src) = keys := DynEvent.batchGet.inj hkeq
        subst hkeq2
        refine ⟨by simpa using batchAcc_mem_length 100 [] mhs (by decide) mhBatch hmb, ?_⟩
        intro k2 hk2
        rcases List.mem_map.mp hk2 with ⟨mh, hmh, rfl⟩
        refine ⟨mh, ?_, rfl⟩
        rw [← batchList_flatten 100 mhs]
        exact List.mem_flatten.mpr ⟨mhBatch, hmb, hmh⟩
      · obtain ⟨reqs, hr⟩ := runBatches_events_batchWrite unproc src _ t0 e h
        rw [hkeys] at hr
        simp at hr
    | none =>
      rw [herr] at he
      rcases List.mem_append.mp he with h | h
      · rw [List.map_map] at h
        rcases List.mem_map.mp h with ⟨mhBatch, hmb, hkeq⟩
        rw [hkeys] at hkeq
        have hkeq2 : mhBatch.map (legacyKey src) = keys := DynEvent.batchGet.inj hkeq
        subst hkeq2
        refine ⟨by simpa using batchAcc_mem_length 100 [] mhs (by decide) mhBatch hmb, ?_⟩
        intro k2 hk2
        rcases List.mem_map.mp hk2 with ⟨mh, hmh, rfl⟩
        refine ⟨mh, ?_, rfl⟩
        rw [← batchList_flatten 100 mhs]
        exact List.mem_flatten.mpr ⟨mhBatch, hmb, hmh⟩
      · obtain ⟨reqs, hr⟩ := runBatches_events_batchWrite unproc src _ t0 e h
        rw [hkeys] at hr
        simp at hr
  · intro hstatus
    simp only [index] at hstatus ⊢
    cases herr : (runBatches unproc src t0 (batchList 25 (((batchList 100 mhs).map
        (fun batch => batch.map (legacyKey src))).map (batchGetRows t0)).flatten)).error with
    | some e =>
      rw [herr] at hstatus
      simp only [errorResponse] at hstatus
      exact absurd hstatus (by decide)
    | none =>
      have hupd := runBatches_updated_of_ok unproc src (batchList 25 (((batchList 100 mhs).map
        (fun batch => batch.map (legacyKey src))).map (batchGetRows t0)).flatten) t0 herr
      have hlen : ((batchList 25 (((batchList 100 mhs).map
          (fun batch => batch.map (legacyKey src))).map (batchGetRows t0)).flatten).map
          List.length).sum =
          (mhs.filterMap (fun mh => t0 (legacyKey src mh))).length := by
        rw [← List.length_flatten, batchList_flatten, hrows]
        exact length_filterMap_map_eq (fun mh => t0 (legacyKey src mh)) _ mhs
      simp only
      rw [hupd, hlen]

/-! ## Witnesses: each hypothesis-carrying claim theorem applied at a
concrete input -/

theorem writeCAR_multipart_integrity_witness :
    (writeCAR (fun _ => none) (some "u")
        ⟨"r", "b", "k", ⟨1, 0x0202, ⟨0x12, 0, []⟩⟩, 1, []⟩ ⟨"dr", "db", "dk"⟩
        (some 0)).2 = some "integrity check failed" ∧
    S3Event.abortMultipartUpload "db" "dk" "u" ∈
      (writeCAR (fun _ => none) (some "u")
        ⟨"r", "b", "k", ⟨1, 0x0202, ⟨0x12, 0, []⟩⟩, 1, []⟩ ⟨"dr", "db", "dk"⟩
        (some 0)).1 ∧
    ∀ bkt k uid parts, S3Event.completeMultipartUpload bkt k uid parts ∉
      (writeCAR (fun _ => none) (some "u")
        ⟨"r", "b", "k", ⟨1, 0x0202, ⟨0x12, 0, []⟩⟩, 1, []⟩ ⟨"dr", "db", "dk"⟩
        (some 0)).1 :=
  writeCAR_multipart_integrity (fun _ => none) "u"
    ⟨"r", "b", "k", ⟨1, 0x0202, ⟨0x12, 0, []⟩⟩, 1, []⟩ ⟨"dr", "db", "dk"⟩
    (some 0) (by decide) (by decide)

theorem reindex_isolation_witness :
    (index (fun _ _ => []) ⟨"r", "b", "k", ⟨1, 0x0202, ⟨0x12, 0, []⟩⟩⟩
      (fun _ => some (3, 4)) [⟨0x12, 0, []⟩]).1 ⟨"m", "other"⟩ =
      (fun _ => some ((3 : Nat), (4 : Nat))) (⟨"m", "other"⟩ : TableKey) :=
  reindex_isolation (fun _ _ => []) ⟨"r", "b", "k", ⟨1, 0x0202, ⟨0x12, 0, []⟩⟩⟩
    (fun _ => some (3, 4)) [⟨0x12, 0, []⟩] ⟨"m", "other"⟩ (by decide) (by decide)

theorem copy_headCheck_witness :
    copy ⟨HeadResult.found, none, none, [], fun _ => [], none, fun _ => none⟩
        ⟨"r", "b", "k", ⟨1, 0x0202, ⟨0x12, 0, []⟩⟩⟩ ⟨"dr", "db", "dk"⟩
        ⟨"ir", "ib", "ik"⟩ ⟨"lr", "lb", "lk"⟩ none =
      ([S3Event.headObject "db" "dk"], ⟨200, okBody⟩) ∧
    copy ⟨HeadResult.failed (some 500), none, none, [], fun _ => [], none, fun _ => none⟩
        ⟨"r", "b", "k", ⟨1, 0x0202, ⟨0x12, 0, []⟩⟩⟩ ⟨"dr", "db", "dk"⟩
        ⟨"ir", "ib", "ik"⟩ ⟨"lr", "lb", "lk"⟩ none =
      ([S3Event.headObject "db" "dk"],
       errorResponse "Failed to determine if object exists at destination" 500) ∧
    S3Event.getObject "b" "k" ∈
      (copy ⟨HeadResult.failed (some 404), none, none, [], fun _ => [], none, fun _ => none⟩
        ⟨"r", "b", "k", ⟨1, 0x0202, ⟨0x12, 0, []⟩⟩⟩ ⟨"dr", "db", "dk"⟩
        ⟨"ir", "ib", "ik"⟩ ⟨"lr", "lb", "lk"⟩ none).1 :=
  ⟨(copy_headCheck ⟨HeadResult.found, none, none, [], fun _ => [], none, fun _ => none⟩
      ⟨"r", "b", "k", ⟨1, 0x0202, ⟨0x12, 0, []⟩⟩⟩ ⟨"dr", "db", "dk"⟩
      ⟨"ir", "ib", "ik"⟩ ⟨"lr", "lb", "lk"⟩ none).1 rfl,
   (copy_headCheck ⟨HeadResult.failed (some 500), none, none, [], fun _ => [], none, fun _ => none⟩
      ⟨"r", "b", "k", ⟨1, 0x0202, ⟨0x12, 0, []⟩⟩⟩ ⟨"dr", "db", "dk"⟩
      ⟨"ir", "ib", "ik"⟩ ⟨"lr", "lb", "lk"⟩ none).2.1 (some 500) rfl (by decide),
   (copy_headCheck ⟨HeadResult.failed (some 404), none, none, [], fun _ => [], none, fun _ => none⟩
      ⟨"r", "b", "k", ⟨1, 0x0202, ⟨0x12, 0, []⟩⟩⟩ ⟨"dr", "db", "dk"⟩
      ⟨"ir", "ib", "ik"⟩ ⟨"lr", "lb", "lk"⟩ none).2.2 rfl⟩

theorem reindex_putThenDelete_witness :
    ((processBatch (fun _ _ => []) ⟨"r", "b", "k", ⟨1, 0x0202, ⟨0x12, 0, []⟩⟩⟩
        (fun _ => none) [⟨"m", "r/b/k", 0, 5⟩]).events =
      (writeItems (fun _ _ => []) (fun _ => none)
          (putRequests ⟨"r", "b", "k", ⟨1, 0x0202, ⟨0x12, 0, []⟩⟩⟩
            [⟨"m", "r/b/k", 0, 5⟩])).events ++
        (if (writeItems (fun _ _ => []) (fun _ => none)
              (putRequests ⟨"r", "b", "k", ⟨1, 0x0202, ⟨0x12, 0, []⟩⟩⟩
                [⟨"m", "r/b/k", 0, 5⟩])).ok then
          (writeItems (fun _ _ => [])
            (writeItems (fun _ _ => []) (fun _ => none)
              (putRequests ⟨"r", "b", "k", ⟨1, 0x0202, ⟨0x12, 0, []⟩⟩⟩
                [⟨"m", "r/b/k", 0, 5⟩])).table
            (deleteRequests [⟨"m", "r/b/k", 0, 5⟩])).events
        else [])) ∧
    (∀ e ∈ (writeItems (fun _ _ => []) (fun _ => none)
        (putRequests ⟨"r", "b", "k", ⟨1, 0x0202, ⟨0x12, 0, []⟩⟩⟩
          [⟨"m", "r/b/k", 0, 5⟩])).events,
      ∃ reqs, e = DynEvent.batchWrite reqs ∧ ∀ r ∈ reqs,
        r ∈ putRequests ⟨"r", "b", "k", ⟨1, 0x0202, ⟨0x12, 0, []⟩⟩⟩
          [⟨"m", "r/b/k", 0, 5⟩]) ∧
    (writeItems (fun _ _ => []) (fun _ => none)
      (putRequests ⟨"r", "b", "k", ⟨1, 0x0202, ⟨0x12, 0, []⟩⟩⟩
        [⟨"m", "r/b/k", 0, 5⟩])).events.length ≤ 3 ∧
    ((writeItems (fun _ _ => []) (fun _ => none)
        (putRequests ⟨"r", "b", "k", ⟨1, 0x0202, ⟨0x12, 0, []⟩⟩⟩
          [⟨"m", "r/b/k", 0, 5⟩])).ok = false →
      (processBatch (fun _ _ => []) ⟨"r", "b", "k", ⟨1, 0x0202, ⟨0x12, 0, []⟩⟩⟩
        (fun _ => none) [⟨"m", "r/b/k", 0, 5⟩]).error = some "unprocessed items" ∧
      (processBatch (fun _ _ => []) ⟨"r", "b", "k", ⟨1, 0x0202, ⟨0x12, 0, []⟩⟩⟩
        (fun _ => none) [⟨"m", "r/b/k", 0, 5⟩]).events =
        (writeItems (fun _ _ => []) (fun _ => none)
          (putRequests ⟨"r", "b", "k", ⟨1, 0x0202, ⟨0x12, 0, []⟩⟩⟩
            [⟨"m", "r/b/k", 0, 5⟩])).events) :=
  ⟨(reindex_putThenDelete (fun _ _ => []) ⟨"r", "b", "k", ⟨1, 0x0202, ⟨0x12, 0, []⟩⟩⟩
      (fun _ => none) [⟨"m", "r/b/k", 0, 5⟩]).1,
   (reindex_putThenDelete (fun _ _ => []) ⟨"r", "b", "k", ⟨1, 0x0202, ⟨0x12, 0, []⟩⟩⟩
      (fun _ => none) [⟨"m", "r/b/k", 0, 5⟩]).2.1,
   (reindex_putThenDelete (fun _ _ => []) ⟨"r", "b", "k", ⟨1, 0x0202, ⟨0x12, 0, []⟩⟩⟩
      (fun _ => none) [⟨"m", "r/b/k", 0, 5⟩]).2.2.1,
   (reindex_putThenDelete (fun _ _ => []) ⟨"r", "b", "k", ⟨1, 0x0202, ⟨0x12, 0, []⟩⟩⟩
      (fun _ => none) [⟨"m", "r/b/k", 0, 5⟩]).2.2.2.1⟩

theorem writeCAR_sizeStrategy_witness :
    (writeCAR (fun _ => none) none ⟨"r", "b", "k", ⟨1, 0x0202, ⟨0x12, 0, []⟩⟩, 1, []⟩
        ⟨"dr", "db", "dk"⟩ none =
      ([S3Event.putObject "db" "dk" [] (some 1) (some (base64pad []))], none)) ∧
    ((writeCAR (fun _ => none) (some "u")
        ⟨"r", "b", "k", ⟨1, 0x0202, ⟨0x12, 0, []⟩⟩, 1, []⟩ ⟨"dr", "db", "dk"⟩
        (some 0)).1.head? = some (S3Event.createMultipartUpload "db" "dk")) :=
  ⟨(writeCAR_sizeStrategy (fun _ => none) none
      ⟨"r", "b", "k", ⟨1, 0x0202, ⟨0x12, 0, []⟩⟩, 1, []⟩ ⟨"dr", "db", "dk"⟩ none).1
      (by decide),
   ((writeCAR_sizeStrategy (fun _ => none) (some "u")
      ⟨"r", "b", "k", ⟨1, 0x0202, ⟨0x12, 0, []⟩⟩, 1, []⟩ ⟨"dr", "db", "dk"⟩
      (some 0)).2 (by decide)).1⟩

theorem writeCAR_multipart_partsSpec_witness :
    uploadNums (writeCAR (fun _ => none) (some "u")
        ⟨"r", "b", "k", ⟨1, 0x0202, ⟨0x12, 0, []⟩⟩, 1, [[5]]⟩ ⟨"dr", "db", "dk"⟩
        (some 0)).1 =
      List.range (uploadBodies (writeCAR (fun _ => none) (some "u")
        ⟨"r", "b", "k", ⟨1, 0x0202, ⟨0x12, 0, []⟩⟩, 1, [[5]]⟩ ⟨"dr", "db", "dk"⟩
        (some 0)).1).length ∧
    (uploadBodies (writeCAR (fun _ => none) (some "u")
        ⟨"r", "b", "k", ⟨1, 0x0202, ⟨0x12, 0, []⟩⟩, 1, [[5]]⟩ ⟨"dr", "db", "dk"⟩
        (some 0)).1).flatten = [[5]].flatten ∧
    (∀ e ∈ (writeCAR (fun _ => none) (some "u")
        ⟨"r", "b", "k", ⟨1, 0x0202, ⟨0x12, 0, []⟩⟩, 1, [[5]]⟩ ⟨"dr", "db", "dk"⟩
        (some 0)).1,
      ∀ uid n bkt k body len cks, e = S3Event.uploadPart uid n bkt k body len cks →
        uid = "u" ∧ bkt = "db" ∧ k = "dk" ∧
        len = body.length ∧ cks = checksumOf (sha256Bytes body)) ∧
    (∀ b ∈ (uploadBodies (writeCAR (fun _ => none) (some "u")
        ⟨"r", "b", "k", ⟨1, 0x0202, ⟨0x12, 0, []⟩⟩, 1, [[5]]⟩ ⟨"dr", "db", "dk"⟩
        (some 0)).1).dropLast, TARGET_PART_SIZE ≤ b.length) ∧
    (∀ b ∈ uploadBodies (writeCAR (fun _ => none) (some "u")
        ⟨"r", "b", "k", ⟨1, 0x0202, ⟨0x12, 0, []⟩⟩, 1, [[5]]⟩ ⟨"dr", "db", "dk"⟩
        (some 0)).1, b ≠ []) :=
  writeCAR_multipart_partsSpec (fun _ => none) "u"
    ⟨"r", "b", "k", ⟨1, 0x0202, ⟨0x12, 0, []⟩⟩, 1, [[5]]⟩ ⟨"dr", "db", "dk"⟩
    (some 0) (by decide)

theorem shardMultihashes_spec_witness :
    shardMultihashes (IdxGetResult.success (some [⟨0x12, 0, []⟩])) none
        ⟨"r", "b", "k", ⟨1, 0x0202, ⟨0x12, 0, []⟩⟩⟩ =
      .ok ([S3Event.getObject "b" ("k" ++ ".idx")], [⟨0x12, 0, []⟩]) ∧
    shardMultihashes (IdxGetResult.failure (some 404))
        (some [⟨⟨1, 0x0202, ⟨0x12, 0, []⟩⟩, 0, 1⟩])
        ⟨"r", "b", "k", ⟨1, 0x0202, ⟨0x12, 0, []⟩⟩⟩ =
      .ok ([S3Event.getObject "b" ("k" ++ ".idx"), S3Event.getObject "b" "k"],
           ([⟨⟨1, 0x0202, ⟨0x12, 0, []⟩⟩, 0, 1⟩] : List CarBlock).map
             (fun b => b.cid.multihash)) ∧
    ∃ msg, shardMultihashes (IdxGetResult.failure (some 500)) none
        ⟨"r", "b", "k", ⟨1, 0x0202, ⟨0x12, 0, []⟩⟩⟩ = .error msg :=
  ⟨(shardMultihashes_spec (IdxGetResult.success (some [⟨0x12, 0, []⟩])) none
      ⟨"r", "b", "k", ⟨1, 0x0202, ⟨0x12, 0, []⟩⟩⟩).1 [⟨0x12, 0, []⟩] rfl,
   (shardMultihashes_spec (IdxGetResult.failure (some 404))
      (some [⟨⟨1, 0x0202, ⟨0x12, 0, []⟩⟩, 0, 1⟩])
      ⟨"r", "b", "k", ⟨1, 0x0202, ⟨0x12, 0, []⟩⟩⟩).2.1
      [⟨⟨1, 0x0202, ⟨0x12, 0, []⟩⟩, 0, 1⟩] rfl rfl,
   (shardMultihashes_spec (IdxGetResult.failure (some 500)) none
      ⟨"r", "b", "k", ⟨1, 0x0202, ⟨0x12, 0, []⟩⟩⟩).2.2 (some 500) rfl (by decide)⟩

theorem reindex_updatedCount_witness :
    (∀ e ∈ (index (fun _ _ => []) ⟨"r", "b", "k", ⟨1, 0x0202, ⟨0x12, 0, []⟩⟩⟩
        (fun k => if k = legacyKey ⟨"r", "b", "k", ⟨1, 0x0202, ⟨0x12, 0, []⟩⟩⟩
            ⟨0x12, 0, []⟩ then some (7, 9) else none)
        [⟨0x12, 0, []⟩]).2.1, ∀ keys, e = DynEvent.batchGet keys →
      keys.length ≤ 100 ∧ ∀ k2 ∈ keys, ∃ mh ∈ ([⟨0x12, 0, []⟩] : List Multihash),
        k2 = legacyKey ⟨"r", "b", "k", ⟨1, 0x0202, ⟨0x12, 0, []⟩⟩⟩ mh) ∧
    (index (fun _ _ => []) ⟨"r", "b", "k", ⟨1, 0x0202, ⟨0x12, 0, []⟩⟩⟩
        (fun k => if k = legacyKey ⟨"r", "b", "k", ⟨1, 0x0202, ⟨0x12, 0, []⟩⟩⟩
            ⟨0x12, 0, []⟩ then some (7, 9) else none)
        [⟨0x12, 0, []⟩]).2.2 =
      ⟨200, okUpdatedBody (([⟨0x12, 0, []⟩] : List Multihash).filterMap
        (fun mh => (fun k => if k = legacyKey ⟨"r", "b", "k", ⟨1, 0x0202, ⟨0x12, 0, []⟩⟩⟩
            ⟨0x12, 0, []⟩ then some ((7 : Nat), (9 : Nat)) else none)
          (legacyKey ⟨"r", "b", "k", ⟨1, 0x0202, ⟨0x12, 0, []⟩⟩⟩ mh))).length⟩ :=
  ⟨(reindex_updatedCount (fun _ _ => []) ⟨"r", "b", "k", ⟨1, 0x0202, ⟨0x12, 0, []⟩⟩⟩
      (fun k => if k = legacyKey ⟨"r", "b", "k", ⟨1, 0x0202, ⟨0x12, 0, []⟩⟩⟩
          ⟨0x12, 0, []⟩ then some (7, 9) else none)
      [⟨0x12, 0, []⟩]).1,
   (reindex_updatedCount (fun _ _ => []) ⟨"r", "b", "k", ⟨1, 0x0202, ⟨0x12, 0, []⟩⟩⟩
      (fun k => if k = legacyKey ⟨"r", "b", "k", ⟨1, 0x0202, ⟨0x12, 0, []⟩⟩⟩
          ⟨0x12, 0, []⟩ then some (7, 9) else none)
      [⟨0x12, 0, []⟩]).2 (by decide)⟩

theorem writeCAR_small_noLocalCheck_witness :
    (writeCAR (fun _ => none) none ⟨"r", "b", "k", ⟨1, 0x0202, ⟨0x12, 0, []⟩⟩, 1, [[5]]⟩
        ⟨"dr", "db", "dk"⟩ none).2 = none ∧
    (writeCAR (fun _ => none) none ⟨"r", "b", "k", ⟨1, 0x0202, ⟨0x12, 0, []⟩⟩, 1, [[5]]⟩
        ⟨"dr", "db", "dk"⟩ none).1 =
      [S3Event.putObject "db" "dk" [[5]].flatten (some 1)
         (some (checksumOf []))] ∧
    ∀ bkt k uid, S3Event.abortMultipartUpload bkt k uid ∉
      (writeCAR (fun _ => none) none ⟨"r", "b", "k", ⟨1, 0x0202, ⟨0x12, 0, []⟩⟩, 1, [[5]]⟩
        ⟨"dr", "db", "dk"⟩ none).1 :=
  writeCAR_small_noLocalCheck (fun _ => none) none
    ⟨"r", "b", "k", ⟨1, 0x0202, ⟨0x12, 0, []⟩⟩, 1, [[5]]⟩ ⟨"dr", "db", "dk"⟩ none
    (by decide) (by decide)

end Sha256it
